import Mathlib

/-!
# Worker pool (`pool/worker.go`)

A shallow embedding of the worker pool: the `Worker` struct, the functions
`CreateWorker`, `StartServer`, `StopServer`, `QueueJob`, `ErrorLog` and
`SetMaxWorkersOption`, and the goroutines `StartServer` spawns.

Goroutines are program counters over the shared `Worker` value; one `Action`
is one atomic move of one goroutine (or one rendezvous of two goroutines on
an unbuffered channel).  A run is a list of actions, so every interleaving of the
goroutines is a run and every run can be evaluated.

Go facts used throughout:
* `make(chan T, n)` panics for `n < 0` and for `n` out of range, does not
  return when the memory for the buffer is missing, and gives an unbuffered
  channel for `n = 0`;
* `close` of a closed channel panics; a send on a closed channel panics;
* a receive on a closed channel first drains the buffer (with `ok = true`)
  and then yields the zero value with `ok = false`;
* a receive from a `nil` channel blocks forever (the unarmed timer);
* `select` takes any one of its ready cases;
* calling a method on a `nil` interface value panics.
-/

namespace Pool

/-! ## Data model -/

/-- Error values built by `worker.go` (`errors.New`, `errors.Errorf`,
`errors.Wrap`), told apart by the place that builds them. -/
inductive Error where
  /-- Line 38: `CreateENV` failed. -/
  | createEnv (cause : String)
  /-- Line 42: `env.Parse` failed. -/
  | parseEnv (cause : String)
  /-- Line 46: `zap.NewDevelopment` failed. -/
  | getLogger (cause : String)
  /-- Line 62: `"config not found"`. -/
  | configNotFound
  /-- Line 65: an option of `StartServer` failed. -/
  | optionError (cause : Error)
  /-- Line 115: `"send job to a stopped worker"`. -/
  | stoppedWorker
  /-- Line 130: `"worker channel is closed unexpectedly"`. -/
  | channelClosed
  /-- Line 133: `"wait for worker timedout after %d"`. -/
  | timedOut (timeout : Int)
  /-- An error returned by a job's `Execute`. -/
  | execError (msg : String)
  deriving DecidableEq, Repr

/-- Modelled from the spec: the `Job` interface is declared in a file of the
package that is not part of the sources at hand.  A job exposes
`Execute() error`, `Name() string` and `GetContext()` (an optional request
context); an implementation is given by what the three methods return. -/
structure JobImpl where
  /-- Result of `Name()`. -/
  name : String
  /-- Result of `GetContext()`; `none` is a nil context. -/
  context : Option Nat
  /-- Result of `Execute()`; `none` is a nil error. -/
  execute : Option Error
  deriving DecidableEq, Repr

/-- A value of interface type `Job`; `none` is the nil interface value. -/
abbrev Job := Option JobImpl

/-- The struct `WorkerConfig`. -/
structure WorkerConfig where
  MaxWorkers : Int
  deriving DecidableEq, Repr

/-- The constant `maxWorkers` (line 15). -/
def maxWorkers : Int := 1000

/-- A channel of type `chan chan Job`.  Every value ever sent on it is the
pool's one `JobChannel` (line 74), so the buffer is the number of queued
handoff slots. -/
structure Chan where
  cap : Nat
  len : Nat
  closed : Bool
  deriving DecidableEq, Repr

/-- The largest size `make(chan chan Job, n)` accepts on a 64-bit platform:
the runtime's `makechan` refuses a buffer, here `n` elements of 8 bytes (a
channel value is a pointer), of more than `maxAlloc - hchanSize = 2^48 - 96`
bytes. -/
def chanSizeLimit : Nat := 2 ^ 45 - 12

/-- Go's `make(chan chan Job, n)`, where `memory` is the largest size whose
buffer the runtime can allocate at the call.  `none`: `make` does not return;
it panics ("makechan: size out of range") for a negative size and for a size
beyond `chanSizeLimit`, and the runtime ends the program (out of memory) for
a size beyond `memory`. -/
def makeChan (memory : Nat) (n : Int) : Option Chan :=
  if n < 0 ∨ (chanSizeLimit : Int) < n ∨ (memory : Int) < n then none
  else some { cap := n.toNat, len := 0, closed := false }

/-- One record written by `logger.Error("worker job error", ...)` in
`ErrorLog`: the context the logger was derived from (`none` for `Bg()`), the
job name and the error. -/
structure LogEntry where
  context : Option Nat
  jobName : String
  err : Error
  deriving DecidableEq, Repr

/-- The struct `Worker`.  `Logger` is what the logger has written;
`JobChannel` and `quit` are unbuffered channels nothing is buffered in, so
each is its closed flag; `mux` is held for writing exactly while the shutdown
watcher is between its lock and its unlock. -/
structure Worker where
  Config : Option WorkerConfig
  Logger : List LogEntry
  WorkerPool : Chan
  JobChannelClosed : Bool
  quitClosed : Bool
  isStopped : Bool
  muxLocked : Bool
  deriving DecidableEq, Repr

/-- What a call that can return an error or panic produces. -/
inductive Outcome (α : Type) where
  | ok (a : α)
  | error (e : Error)
  /-- The call does not return: a panic, or the runtime ending the program. -/
  | panic
  deriving DecidableEq, Repr

/-! ## `CreateWorker` -/

/-- `CreateWorker` (lines 35-56).  The packages `environment` and `zap` are
outside the sources: `createEnv` is the result of `environment.CreateENV`,
`parse` what `env.Parse` does to the config it is handed, `newLogger` the
result of `zap.NewDevelopment`; `memory` is what the runtime can allocate
(see `makeChan`). -/
def CreateWorker (memory : Nat) (createEnv : Option String)
    (parse : WorkerConfig → Except String WorkerConfig)
    (newLogger : Option String) : Outcome Worker :=
  match createEnv with
  | some cause => .error (.createEnv cause)
  | none =>
    match parse { MaxWorkers := maxWorkers } with
    | .error cause => .error (.parseEnv cause)
    | .ok config =>
      match newLogger with
      | some cause => .error (.getLogger cause)
      | none =>
        match makeChan memory config.MaxWorkers with
        | none => .panic
        | some pool =>
          .ok { Config := some config
                Logger := []
                WorkerPool := pool
                JobChannelClosed := false
                quitClosed := false
                isStopped := false
                muxLocked := false }

/-! ## `ErrorLog`, `StopServer`, `SetMaxWorkersOption` -/

/-- `ErrorLog` (lines 140-149).  `job.GetContext()` on a nil job panics
(`none`); otherwise one record is written, by the logger for the job's
context when there is one and by the background logger when there is none. -/
def ErrorLog (w : Worker) (job : Job) (err : Error) : Option Worker :=
  match job with
  | none => none
  | some j =>
    some { w with
      Logger := w.Logger ++ [{ context := j.context, jobName := j.name, err := err }] }

/-- `StopServer` (lines 107-109): `close(w.quit)`, which panics (`none`) when
`quit` is closed already. -/
def StopServer (w : Worker) : Option Worker :=
  if w.quitClosed then none else some { w with quitClosed := true }

/-- The function returned by `SetMaxWorkersOption maxWorkers` (lines
152-158), run on `w`.  `w.Config.MaxWorkers = ...` panics on a nil `Config`,
`make` does not return for a size it cannot allocate (see `makeChan`, which
`memory` is for); otherwise the function returns nil. -/
def SetMaxWorkersOption (memory : Nat) (w : Worker) (maxWorkers : Int) : Outcome Worker :=
  match w.Config with
  | none => .panic
  | some config =>
    match makeChan memory maxWorkers with
    | none => .panic
    | some pool =>
      .ok { w with
        Config := some { config with MaxWorkers := maxWorkers }
        WorkerPool := pool }

/-! ## Goroutines -/

/-- Where a worker goroutine (lines 70-88) stands. -/
inductive WorkerPc where
  /-- Line 74, about to send `w.JobChannel` on `w.WorkerPool`. -/
  | advertise
  /-- Line 76: the slot is sent, the worker enters the `select` or is parked
  in it. -/
  | select
  /-- Line 79, holding the received `job`, `Execute` not yet returned. -/
  | exec (job : Job)
  /-- Line 85, returned. -/
  | exited
  | panicked
  deriving DecidableEq, Repr

/-- Where the shutdown watcher (lines 91-101) stands. -/
inductive WatcherPc where
  /-- Line 93, blocked on `<-w.quit`. -/
  | waitQuit
  /-- Line 98, lock held and `isStopped` set. -/
  | closeWorkerPool
  /-- Line 99. -/
  | closeJobChannel
  | done
  | panicked
  deriving DecidableEq, Repr

/-- Where a `QueueJob` call (lines 112-137) stands. -/
inductive CallPc where
  /-- Line 113, about to take the read lock. -/
  | check
  /-- Line 125, in the `select`. -/
  | wait
  /-- Line 128, holding a handoff slot, about to send the job on it. -/
  | send
  /-- Line 136 or 118, returned `err`. -/
  | returned (err : Option Error)
  | panicked
  deriving DecidableEq, Repr

/-- One `QueueJob` call: its arguments and where it stands. -/
structure Call where
  job : Job
  timeout : Int
  pc : CallPc
  deriving DecidableEq, Repr

/-- What one move of a goroutine does to the shared `Worker` value. -/
inductive Move (Pc : Type) where
  /-- The goroutine cannot move now. -/
  | blocked
  /-- The goroutine panics, which ends the program. -/
  | panic
  | next (w : Worker) (pc : Pc)
  deriving DecidableEq, Repr

/-- Worker loop, line 74: `w.WorkerPool <- w.JobChannel`: a panic on a closed
queue, a slot more in the buffer when there is room, blocked otherwise.  (On
an unbuffered queue, of capacity 0, the send is a rendezvous with a waiting
`QueueJob`: the action `advertiseTo`.) -/
def workerAdvertise (w : Worker) : Move WorkerPc :=
  if w.WorkerPool.closed then .panic
  else if w.WorkerPool.len < w.WorkerPool.cap then
    .next { w with WorkerPool := { w.WorkerPool with len := w.WorkerPool.len + 1 } } .select
  else .blocked

/-- Worker loop, line 77 on a closed `JobChannel`: the receive yields the
zero value, a nil job. -/
def workerReceiveClosed (w : Worker) : Move WorkerPc :=
  if w.JobChannelClosed then .next w (.exec none) else .blocked

/-- Worker loop, line 83: `case <-w.quit`, ready once `quit` is closed. -/
def workerQuit (w : Worker) : Move WorkerPc :=
  if w.quitClosed then .next w .exited else .blocked

/-- Worker loop, lines 79-81: `job.Execute()` (a panic on a nil job) and, on
an error, `w.ErrorLog(job, err)`; then back to line 74. -/
def workerExecute (w : Worker) (job : Job) : Move WorkerPc :=
  match job with
  | none => .panic
  | some j =>
    match j.execute with
    | none => .next w .advertise
    | some err =>
      match ErrorLog w job err with
      | none => .panic
      | some w1 => .next w1 .advertise

/-- Shutdown watcher, lines 93-99, one statement group at a time. -/
def watcherMove (w : Worker) : WatcherPc → Move WatcherPc
  | .waitQuit =>
    if w.quitClosed && !w.muxLocked then
      .next { w with muxLocked := true, isStopped := true } .closeWorkerPool
    else .blocked
  | .closeWorkerPool =>
    if w.WorkerPool.closed then .panic
    else .next { w with WorkerPool := { w.WorkerPool with closed := true } } .closeJobChannel
  | .closeJobChannel =>
    if w.JobChannelClosed then .panic
    else .next { w with JobChannelClosed := true, muxLocked := false } .done
  | .done => .blocked
  | .panicked => .blocked

/-- `QueueJob`, lines 113-124: the stopped check under the read lock.  The
timer of line 123 is armed exactly when `timeout > 0`, which `QueueJob.timer`
reads off `timeout`. -/
def QueueJob.check (w : Worker) (job : Job) : Move CallPc :=
  if w.muxLocked then .blocked
  else if w.isStopped then
    match ErrorLog w job .stoppedWorker with
    | none => .panic
    | some w1 => .next w1 (.returned (some .stoppedWorker))
  else .next w .wait

/-- `QueueJob`, lines 126-131: `case jobChannel, ok := <-w.WorkerPool`. -/
def QueueJob.receive (w : Worker) : Move CallPc :=
  if 0 < w.WorkerPool.len then
    .next { w with WorkerPool := { w.WorkerPool with len := w.WorkerPool.len - 1 } } .send
  else if w.WorkerPool.closed then .next w (.returned (some .channelClosed))
  else .blocked

/-- `QueueJob`, lines 132-134: `case <-t`, where `t` is nil unless
`timeout > 0`. -/
def QueueJob.timer (w : Worker) (job : Job) (timeout : Int) : Move CallPc :=
  if 0 < timeout then
    match ErrorLog w job (.timedOut timeout) with
    | none => .panic
    | some w1 => .next w1 (.returned (some (.timedOut timeout)))
  else .blocked

/-- `QueueJob`, line 128 on a closed `JobChannel`: the send panics. -/
def QueueJob.sendClosed (w : Worker) : Move CallPc :=
  if w.JobChannelClosed then .panic else .blocked

/-! ## The program -/

/-- The pool and the goroutines around it.  `executed` and `handoffs` are
history: the jobs whose `Execute` has returned, in order, and the pairs
(call, worker) of the hand-offs made, in order. -/
structure Sys where
  w : Worker
  workers : List WorkerPc
  watcher : Option WatcherPc
  calls : List Call
  executed : List JobImpl
  handoffs : List (Nat × Nat)
  crashed : Bool
  deriving DecidableEq, Repr

/-- A pool that has been created and not started: no goroutine runs. -/
def Sys.created (w : Worker) : Sys :=
  { w := w, workers := [], watcher := none, calls := [], executed := [],
    handoffs := [], crashed := false }

/-- `StartServer` (lines 60-104).  `lib.RunOptionalFunc` is outside the
sources: `options` is what running the options does to the pool.  The loop of
line 68 spawns `Config.MaxWorkers` workers (none when that is not positive),
line 91 spawns the watcher. -/
def StartServer (w : Worker) (options : Worker → Outcome Worker) : Outcome Sys :=
  match w.Config with
  | none => .error .configNotFound
  | some _ =>
    match options w with
    | .panic => .panic
    | .error cause => .error (.optionError cause)
    | .ok w1 =>
      match w1.Config with
      | none => .panic
      | some config =>
        .ok { Sys.created w1 with
          workers := List.replicate config.MaxWorkers.toNat .advertise
          watcher := some .waitQuit }

/-- One atomic move of the program. -/
inductive Action where
  /-- Some caller runs `StopServer`. -/
  | stop
  /-- Some caller enters `QueueJob job timeout`; the call gets the next index. -/
  | queue (job : Job) (timeout : Int)
  /-- Call `k` runs the stopped check. -/
  | check (k : Nat)
  /-- Call `k` takes the `WorkerPool` case of its `select`. -/
  | receive (k : Nat)
  /-- Call `k` takes the timer case of its `select`. -/
  | timer (k : Nat)
  /-- The send of call `k` meets the receive of worker `i` on `JobChannel`. -/
  | handoff (k i : Nat)
  /-- The send of call `k` finds `JobChannel` closed. -/
  | sendClosed (k : Nat)
  /-- Worker `i` sends its handoff slot. -/
  | advertise (i : Nat)
  /-- The send of worker `i` meets the receive of call `k` on an unbuffered
  `WorkerPool`. -/
  | advertiseTo (i k : Nat)
  /-- Worker `i` receives from the closed `JobChannel`. -/
  | receiveClosed (i : Nat)
  /-- Worker `i` takes the `quit` case of its `select`. -/
  | quit (i : Nat)
  /-- `Execute` returns in worker `i`. -/
  | execute (i : Nat)
  /-- The shutdown watcher moves. -/
  | watch
  deriving DecidableEq, Repr

/-- Put the result of a move of call `k` back into the program. -/
def Sys.afterCall (s : Sys) (k : Nat) (c : Call) : Move CallPc → Option Sys
  | .blocked => none
  | .panic => some { s with calls := s.calls.set k { c with pc := .panicked }, crashed := true }
  | .next w pc => some { s with w := w, calls := s.calls.set k { c with pc := pc } }

/-- Put the result of a move of worker `i` back into the program. -/
def Sys.afterWorker (s : Sys) (i : Nat) : Move WorkerPc → Option Sys
  | .blocked => none
  | .panic => some { s with workers := s.workers.set i .panicked, crashed := true }
  | .next w pc => some { s with w := w, workers := s.workers.set i pc }

/-- Put the result of a move of the watcher back into the program. -/
def Sys.afterWatcher (s : Sys) : Move WatcherPc → Option Sys
  | .blocked => none
  | .panic => some { s with watcher := some .panicked, crashed := true }
  | .next w pc => some { s with w := w, watcher := some pc }

/-- The program after action `a`; `none` when `a` cannot happen in `s`.  A
panic ends the program: nothing moves in a crashed state. -/
def step (a : Action) (s : Sys) : Option Sys :=
  if s.crashed then none else
  match a with
  | .stop =>
    match StopServer s.w with
    | none => some { s with crashed := true }
    | some w1 => some { s with w := w1 }
  | .queue job timeout =>
    some { s with calls := s.calls ++ [{ job := job, timeout := timeout, pc := .check }] }
  | .check k =>
    match s.calls[k]? with
    | some c =>
      match c.pc with
      | .check => s.afterCall k c (QueueJob.check s.w c.job)
      | _ => none
    | none => none
  | .receive k =>
    match s.calls[k]? with
    | some c =>
      match c.pc with
      | .wait => s.afterCall k c (QueueJob.receive s.w)
      | _ => none
    | none => none
  | .timer k =>
    match s.calls[k]? with
    | some c =>
      match c.pc with
      | .wait => s.afterCall k c (QueueJob.timer s.w c.job c.timeout)
      | _ => none
    | none => none
  | .sendClosed k =>
    match s.calls[k]? with
    | some c =>
      match c.pc with
      | .send => s.afterCall k c (QueueJob.sendClosed s.w)
      | _ => none
    | none => none
  | .handoff k i =>
    match s.calls[k]?, s.workers[i]? with
    | some c, some .select =>
      match c.pc with
      | .send =>
        if s.w.JobChannelClosed then none
        else
          some { s with
            calls := s.calls.set k { c with pc := .returned none }
            workers := s.workers.set i (.exec c.job)
            handoffs := s.handoffs ++ [(k, i)] }
      | _ => none
    | _, _ => none
  | .advertise i =>
    match s.workers[i]? with
    | some .advertise => s.afterWorker i (workerAdvertise s.w)
    | _ => none
  | .advertiseTo i k =>
    match s.workers[i]?, s.calls[k]? with
    | some .advertise, some c =>
      match c.pc with
      | .wait =>
        if s.w.WorkerPool.cap = 0 ∧ s.w.WorkerPool.closed = false then
          some { s with
            workers := s.workers.set i .select
            calls := s.calls.set k { c with pc := .send } }
        else none
      | _ => none
    | _, _ => none
  | .receiveClosed i =>
    match s.workers[i]? with
    | some .select => s.afterWorker i (workerReceiveClosed s.w)
    | _ => none
  | .quit i =>
    match s.workers[i]? with
    | some .select => s.afterWorker i (workerQuit s.w)
    | _ => none
  | .execute i =>
    match s.workers[i]? with
    | some (.exec job) =>
      match s.afterWorker i (workerExecute s.w job) with
      | some s1 =>
        some { s1 with executed := s1.executed ++ job.toList }
      | none => none
    | _ => none
  | .watch =>
    match s.watcher with
    | some pc => s.afterWatcher (watcherMove s.w pc)
    | none => none

/-- The program after the actions `as`, in order; `none` when one of them
cannot happen where it stands. -/
def run : List Action → Sys → Option Sys
  | [], s => some s
  | a :: as, s =>
    match step a s with
    | some s1 => run as s1
    | none => none

/-- The moves of the program, one constructor for each way an action can
end, with the state it leads to written out (`step_sound` below: every
result of `step` is one of them). -/
inductive Step : Action → Sys → Sys → Prop where
  | stop (s : Sys) (hq : s.w.quitClosed = false) :
      Step .stop s { s with w := { s.w with quitClosed := true } }
  | stopPanic (s : Sys) (hq : s.w.quitClosed = true) :
      Step .stop s { s with crashed := true }
  | queue (s : Sys) (job : Job) (timeout : Int) :
      Step (.queue job timeout) s
        { s with calls := s.calls ++ [{ job := job, timeout := timeout, pc := .check }] }
  | checkPass (s : Sys) (k : Nat) (c : Call) (hk : s.calls[k]? = some c)
      (hpc : c.pc = .check) (hmux : s.w.muxLocked = false) (hst : s.w.isStopped = false) :
      Step (.check k) s { s with calls := s.calls.set k { c with pc := .wait } }
  | checkStopped (s : Sys) (k : Nat) (c : Call) (j : JobImpl) (hk : s.calls[k]? = some c)
      (hpc : c.pc = .check) (hmux : s.w.muxLocked = false) (hst : s.w.isStopped = true)
      (hj : c.job = some j) :
      Step (.check k) s
        { s with
          w := { s.w with
            Logger := s.w.Logger ++
              [{ context := j.context, jobName := j.name, err := .stoppedWorker }] }
          calls := s.calls.set k { c with pc := .returned (some .stoppedWorker) } }
  | checkPanic (s : Sys) (k : Nat) (c : Call) (hk : s.calls[k]? = some c)
      (hpc : c.pc = .check) (hmux : s.w.muxLocked = false) (hst : s.w.isStopped = true)
      (hj : c.job = none) :
      Step (.check k) s
        { s with calls := s.calls.set k { c with pc := .panicked }, crashed := true }
  | receiveSlot (s : Sys) (k : Nat) (c : Call) (hk : s.calls[k]? = some c)
      (hpc : c.pc = .wait) (hlen : 0 < s.w.WorkerPool.len) :
      Step (.receive k) s
        { s with
          w := { s.w with WorkerPool := { s.w.WorkerPool with len := s.w.WorkerPool.len - 1 } }
          calls := s.calls.set k { c with pc := .send } }
  | receiveClosed (s : Sys) (k : Nat) (c : Call) (hk : s.calls[k]? = some c)
      (hpc : c.pc = .wait) (hlen : s.w.WorkerPool.len = 0) (hcl : s.w.WorkerPool.closed = true) :
      Step (.receive k) s
        { s with calls := s.calls.set k { c with pc := .returned (some .channelClosed) } }
  | timer (s : Sys) (k : Nat) (c : Call) (j : JobImpl) (hk : s.calls[k]? = some c)
      (hpc : c.pc = .wait) (ht : 0 < c.timeout) (hj : c.job = some j) :
      Step (.timer k) s
        { s with
          w := { s.w with
            Logger := s.w.Logger ++
              [{ context := j.context, jobName := j.name, err := .timedOut c.timeout }] }
          calls := s.calls.set k { c with pc := .returned (some (.timedOut c.timeout)) } }
  | timerPanic (s : Sys) (k : Nat) (c : Call) (hk : s.calls[k]? = some c)
      (hpc : c.pc = .wait) (ht : 0 < c.timeout) (hj : c.job = none) :
      Step (.timer k) s
        { s with calls := s.calls.set k { c with pc := .panicked }, crashed := true }
  | sendClosed (s : Sys) (k : Nat) (c : Call) (hk : s.calls[k]? = some c)
      (hpc : c.pc = .send) (hcl : s.w.JobChannelClosed = true) :
      Step (.sendClosed k) s
        { s with calls := s.calls.set k { c with pc := .panicked }, crashed := true }
  | handoff (s : Sys) (k i : Nat) (c : Call) (hk : s.calls[k]? = some c)
      (hi : s.workers[i]? = some .select) (hpc : c.pc = .send)
      (hopen : s.w.JobChannelClosed = false) :
      Step (.handoff k i) s
        { s with
          calls := s.calls.set k { c with pc := .returned none }
          workers := s.workers.set i (.exec c.job)
          handoffs := s.handoffs ++ [(k, i)] }
  | advertise (s : Sys) (i : Nat) (hi : s.workers[i]? = some .advertise)
      (hopen : s.w.WorkerPool.closed = false) (hlen : s.w.WorkerPool.len < s.w.WorkerPool.cap) :
      Step (.advertise i) s
        { s with
          w := { s.w with WorkerPool := { s.w.WorkerPool with len := s.w.WorkerPool.len + 1 } }
          workers := s.workers.set i .select }
  | advertiseTo (s : Sys) (i k : Nat) (c : Call) (hi : s.workers[i]? = some .advertise)
      (hk : s.calls[k]? = some c) (hpc : c.pc = .wait) (hcap : s.w.WorkerPool.cap = 0)
      (hopen : s.w.WorkerPool.closed = false) :
      Step (.advertiseTo i k) s
        { s with
          workers := s.workers.set i .select
          calls := s.calls.set k { c with pc := .send } }
  | advertisePanic (s : Sys) (i : Nat) (hi : s.workers[i]? = some .advertise)
      (hcl : s.w.WorkerPool.closed = true) :
      Step (.advertise i) s
        { s with workers := s.workers.set i .panicked, crashed := true }
  | receiveNil (s : Sys) (i : Nat) (hi : s.workers[i]? = some .select)
      (hcl : s.w.JobChannelClosed = true) :
      Step (.receiveClosed i) s { s with workers := s.workers.set i (.exec none) }
  | quit (s : Sys) (i : Nat) (hi : s.workers[i]? = some .select)
      (hq : s.w.quitClosed = true) :
      Step (.quit i) s { s with workers := s.workers.set i .exited }
  | execute (s : Sys) (i : Nat) (j : JobImpl) (hi : s.workers[i]? = some (.exec (some j)))
      (he : j.execute = none) :
      Step (.execute i) s
        { s with workers := s.workers.set i .advertise, executed := s.executed ++ [j] }
  | executeError (s : Sys) (i : Nat) (j : JobImpl) (e : Error)
      (hi : s.workers[i]? = some (.exec (some j))) (he : j.execute = some e) :
      Step (.execute i) s
        { s with
          w := { s.w with
            Logger := s.w.Logger ++ [{ context := j.context, jobName := j.name, err := e }] }
          workers := s.workers.set i .advertise
          executed := s.executed ++ [j] }
  | executePanic (s : Sys) (i : Nat) (hi : s.workers[i]? = some (.exec none)) :
      Step (.execute i) s
        { s with workers := s.workers.set i .panicked, crashed := true }
  | watchLock (s : Sys) (hw : s.watcher = some .waitQuit) (hq : s.w.quitClosed = true)
      (hmux : s.w.muxLocked = false) :
      Step .watch s
        { s with
          w := { s.w with muxLocked := true, isStopped := true }
          watcher := some .closeWorkerPool }
  | watchClosePool (s : Sys) (hw : s.watcher = some .closeWorkerPool)
      (hopen : s.w.WorkerPool.closed = false) :
      Step .watch s
        { s with
          w := { s.w with WorkerPool := { s.w.WorkerPool with closed := true } }
          watcher := some .closeJobChannel }
  | watchClosePoolPanic (s : Sys) (hw : s.watcher = some .closeWorkerPool)
      (hcl : s.w.WorkerPool.closed = true) :
      Step .watch s { s with watcher := some .panicked, crashed := true }
  | watchCloseJob (s : Sys) (hw : s.watcher = some .closeJobChannel)
      (hopen : s.w.JobChannelClosed = false) :
      Step .watch s
        { s with
          w := { s.w with JobChannelClosed := true, muxLocked := false }
          watcher := some .done }
  | watchCloseJobPanic (s : Sys) (hw : s.watcher = some .closeJobChannel)
      (hcl : s.w.JobChannelClosed = true) :
      Step .watch s { s with watcher := some .panicked, crashed := true }

/-! ## Pools and jobs to run the program on -/

/-- An `env.Parse` that resolves `POOL_MAX_WORKERS` to `n`. -/
def parseTo (n : Int) : WorkerConfig → Except String WorkerConfig :=
  fun config => .ok { config with MaxWorkers := n }

/-- Options of `StartServer` that do nothing: `StartServer()`. -/
def noOptions : Worker → Outcome Worker := fun w => .ok w

/-- The pool `CreateWorker` returns when `MaxWorkers` resolves to `n`. -/
def newPool (n : Nat) : Worker :=
  { Config := some { MaxWorkers := n }
    Logger := []
    WorkerPool := { cap := n, len := 0, closed := false }
    JobChannelClosed := false
    quitClosed := false
    isStopped := false
    muxLocked := false }

/-- The program right after `StartServer()` on `newPool n`. -/
def started (n : Nat) : Sys :=
  { Sys.created (newPool n) with
    workers := List.replicate n .advertise
    watcher := some .waitQuit }

/-- A job whose `Execute` returns nil. -/
def jobA : JobImpl := { name := "A", context := none, execute := none }

/-- Another job whose `Execute` returns nil. -/
def jobB : JobImpl := { name := "B", context := some 7, execute := none }

/-- A job whose `Execute` returns an error. -/
def jobF : JobImpl := { name := "F", context := some 3, execute := some (.execError "failed") }

/-- The program started on `newPool 1` after its worker advertised,
`StopServer` was called and the watcher ran to its end. -/
def shutDown : Sys :=
  { w :=
      { newPool 1 with
        WorkerPool := { cap := 1, len := 1, closed := true }
        JobChannelClosed := true
        quitClosed := true
        isStopped := true }
    workers := [.select]
    watcher := some .done
    calls := []
    executed := []
    handoffs := []
    crashed := false }

/-- The program started on `newPool 1` whose worker holds `jobF`, handed
over by call 0. -/
def holdingF : Sys :=
  { w := newPool 1
    workers := [.exec (some jobF)]
    watcher := some .waitQuit
    calls := [{ job := some jobF, timeout := 0, pc := .returned none }]
    executed := []
    handoffs := [(0, 0)]
    crashed := false }

/-- The program started on `newPool 1` after its worker advertised: one
handoff slot queued, the worker in its `select`. -/
def advertised : Sys :=
  { w := { newPool 1 with WorkerPool := { cap := 1, len := 1, closed := false } }
    workers := [.select]
    watcher := some .waitQuit
    calls := []
    executed := []
    handoffs := []
    crashed := false }

/-- The shutdown watcher has finished: the pool is marked stopped and the
lock is released. -/
def Stopped (s : Sys) : Prop :=
  s.w.isStopped = true ∧ s.w.muxLocked = false ∧ s.watcher = some .done

/-- Every hand-off made so far was the send of a call that has returned nil. -/
def HandedReturned (s : Sys) : Prop :=
  ∀ k i, (k, i) ∈ s.handoffs → ∃ c, s.calls[k]? = some c ∧ c.pc = .returned none

/-- Where a `QueueJob` call with timeout `t` can stand once it is past its
stopped check, `handed` saying that its job went to a worker. -/
def CallPc.pastCheck (t : Int) (handed : Prop) : CallPc → Prop
  | .check => False
  | .wait => ¬ handed
  | .send => ¬ handed
  | .panicked => ¬ handed
  | .returned none => handed
  | .returned (some e) => ¬ handed ∧ (e = .channelClosed ∨ (e = .timedOut t ∧ 0 < t))

/-- Call `k` is `QueueJob job t` and is past its stopped check. -/
def PastCheck (k : Nat) (job : Job) (t : Int) (s : Sys) : Prop :=
  ∃ pc, s.calls[k]? = some { job := job, timeout := t, pc := pc } ∧
    pc.pastCheck t (∃ i, (k, i) ∈ s.handoffs)

/-- The worker is in its `select` (its handoff slot is out). -/
def WorkerPc.isSelect : WorkerPc → Bool
  | .select => true
  | _ => false

/-- The worker is executing a job. -/
def WorkerPc.isExec : WorkerPc → Bool
  | .exec _ => true
  | _ => false

/-- The call holds a handoff slot and has not yet sent its job. -/
def Call.isSend (c : Call) : Bool :=
  match c.pc with
  | .send => true
  | _ => false

/-- A started pool of `n` workers on which `StopServer` has not been called:
everything is open, and every handoff slot that is out (one for each worker
in its `select`) is either queued or held by a call about to send. -/
def Running (n : Nat) (s : Sys) : Prop :=
  s.w.quitClosed = false ∧ s.w.isStopped = false ∧ s.w.muxLocked = false ∧
  s.w.WorkerPool.closed = false ∧ s.w.JobChannelClosed = false ∧
  s.watcher = some .waitQuit ∧ s.w.WorkerPool.cap = n ∧ s.workers.length = n ∧
  s.w.WorkerPool.len + s.calls.countP Call.isSend = s.workers.countP WorkerPc.isSelect

/-- The moves by which call `k` hands job `j`, with no timeout, to worker
`i`, which first advertises itself. -/
def handOver (k i : Nat) (j : JobImpl) : List Action :=
  [.advertise i, .queue (some j) 0, .check k, .receive k, .handoff k i]

/-- Calls `k`, `k + 1`, ... hand the jobs `js`, one each, to the workers `k`,
`k + 1`, ... -/
def enqueueAll (k : Nat) : List JobImpl → List Action
  | [] => []
  | j :: js => handOver k k j ++ enqueueAll (k + 1) js

/-- The program started on `newPool n` after the jobs `js` were handed to the
first workers by `enqueueAll 0 js`, `m` workers not having moved yet. -/
def allBusy (n : Nat) (js : List JobImpl) (m : Nat) : Sys :=
  { started n with
    workers := js.map (fun j => .exec (some j)) ++ List.replicate m .advertise
    calls := js.map (fun j => { job := some j, timeout := 0, pc := .returned none })
    handoffs := (List.range js.length).map (fun k => (k, k)) }

/-- The jobs passed to `QueueJob` in a run, in the order of the calls. -/
def enqueued : List Action → List Job
  | [] => []
  | .queue job _ :: as => job :: enqueued as
  | _ :: as => enqueued as

/-- The call has returned nil. -/
def Call.returnedNil (c : Call) : Bool :=
  match c.pc with
  | .returned none => true
  | _ => false

/-- The calls of the run `as` from `s` are made one after the other: each
`QueueJob` is entered when every earlier call has returned nil. -/
def Sequential : List Action → Sys → Bool
  | [], _ => true
  | a :: as, s =>
    (match a with
      | .queue _ _ => s.calls.all Call.returnedNil
      | _ => true) &&
    (match step a s with
      | some s1 => Sequential as s1
      | none => true)

/-- The job a worker holds and has not finished. -/
def WorkerPc.inflight : WorkerPc → List JobImpl
  | .exec (some j) => [j]
  | _ => []

/-- The jobs of the calls that have returned nil, in the order of the calls. -/
def handedJobs (s : Sys) : List JobImpl :=
  s.calls.filterMap (fun c => if c.returnedNil then c.job else none)

/-- One worker; the jobs handed over are the jobs executed followed by the
job the worker holds; every call but the last one has returned nil. -/
def Fifo (s : Sys) : Prop :=
  (∃ p, s.workers = [p] ∧ s.executed ++ p.inflight = handedJobs s) ∧
  ∀ k c, s.calls[k]? = some c → k + 1 < s.calls.length → c.returnedNil = true

/-- The moves by which the jobs `js` are enqueued one after the other, from
call `k` on, on a pool of one worker: the worker advertises itself, the call
hands it the job, the worker executes the job. -/
def enqueueInTurn (k : Nat) : List JobImpl → List Action
  | [] => []
  | j :: js => (handOver k 0 j ++ [.execute 0]) ++ enqueueInTurn (k + 1) js

/-- The program started on `newPool 1` after `enqueueInTurn 0 js`. -/
def allDone (js : List JobImpl) : Sys :=
  { started 1 with
    w := { newPool 1 with
      Logger := js.filterMap (fun j =>
        j.execute.map (fun e => { context := j.context, jobName := j.name, err := e })) }
    calls := js.map (fun j => { job := some j, timeout := 0, pc := .returned none })
    executed := js
    handoffs := (List.range js.length).map (fun k => (k, 0)) }

/-- No call has returned an error other than the timeout error of its own
positive timeout. -/
def OnlyTimeouts (s : Sys) : Prop :=
  ∀ c ∈ s.calls, ∀ e, c.pc = .returned (some e) → e = .timedOut c.timeout ∧ 0 < c.timeout

/-- Unless the program has crashed, every worker is about to advertise
itself, in its `select`, or executing a job. -/
def Alive (s : Sys) : Prop :=
  s.crashed = true ∨
    ∀ p ∈ s.workers, p = .advertise ∨ p.isSelect = true ∨ p.isExec = true

/-- Every worker executing a job was handed it by a call that has returned
nil. -/
def ExecHanded (s : Sys) : Prop :=
  s.workers.countP WorkerPc.isExec ≤ s.calls.countP Call.returnedNil

/-- The moves that serve call `k` without any job finishing: the call's own
stopped check and receive of a slot, a worker advertising itself, and the
hand-off of the call's job to a worker. -/
def Serves (k : Nat) (a : Action) : Prop :=
  a = .check k ∨ a = .receive k ∨ (∃ i, a = .advertise i) ∨ ∃ i, a = .handoff k i

/-- The program started on `newPool 2` after both workers advertised and
`QueueJob(A, 0)` passed its stopped check: two handoff slots queued, the call
waiting in its `select`. -/
def twoIdle : Sys :=
  { started 2 with
    w := { newPool 2 with WorkerPool := { cap := 2, len := 2, closed := false } }
    workers := [.select, .select]
    calls := [{ job := some jobA, timeout := 0, pc := .wait }] }

/-! ## Theorems -/

/-! ### The step function and the moves -/

theorem step_sound {a : Action} {s s1 : Sys} (h : step a s = some s1) :
    s.crashed = false ∧ Step a s s1 := by
  unfold step at h
  cases hcr : s.crashed
  swap
  · simp [hcr] at h
  refine ⟨rfl, ?_⟩
  simp only [hcr, Bool.false_eq_true, if_false] at h
  cases a with
  | stop =>
    cases hq : s.w.quitClosed
    · simp [StopServer, hq] at h
      subst h
      simpa [hcr] using Step.stop s hq
    · simp [StopServer, hq] at h
      subst h
      simpa [hcr] using Step.stopPanic s hq
  | queue job t =>
    simp only at h
    cases h
    simpa [hcr] using Step.queue s job t
  | check k =>
    simp only at h
    cases hk : s.calls[k]? with
    | none => simp [hk] at h
    | some c =>
      obtain ⟨job, t, pc⟩ := c
      simp only [hk] at h
      cases pc <;> simp only at h <;> try cases h
      cases hmux : s.w.muxLocked
      · cases hst : s.w.isStopped
        · simp [QueueJob.check, Sys.afterCall, hmux, hst] at h
          subst h
          simpa using Step.checkPass s k _ hk rfl hmux hst
        · cases job with
          | none =>
            simp [QueueJob.check, Sys.afterCall, ErrorLog, hmux, hst] at h
            subst h
            simpa using Step.checkPanic s k _ hk rfl hmux hst rfl
          | some j =>
            simp [QueueJob.check, Sys.afterCall, ErrorLog, hmux, hst] at h
            subst h
            simpa [hmux, hst] using Step.checkStopped s k _ j hk rfl hmux hst rfl
      · simp [QueueJob.check, Sys.afterCall, hmux] at h
  | receive k =>
    simp only at h
    cases hk : s.calls[k]? with
    | none => simp [hk] at h
    | some c =>
      obtain ⟨job, t, pc⟩ := c
      simp only [hk] at h
      cases pc <;> simp only at h <;> try cases h
      by_cases hlen : 0 < s.w.WorkerPool.len
      · simp [QueueJob.receive, Sys.afterCall, hlen] at h
        subst h
        simpa using Step.receiveSlot s k _ hk rfl hlen
      · have hlen0 : s.w.WorkerPool.len = 0 := by omega
        cases hcl : s.w.WorkerPool.closed
        · simp [QueueJob.receive, Sys.afterCall, hlen0, hcl] at h
        · simp [QueueJob.receive, Sys.afterCall, hlen0, hcl] at h
          subst h
          simpa using Step.receiveClosed s k _ hk rfl hlen0 hcl
  | timer k =>
    simp only at h
    cases hk : s.calls[k]? with
    | none => simp [hk] at h
    | some c =>
      obtain ⟨job, t, pc⟩ := c
      simp only [hk] at h
      cases pc <;> simp only at h <;> try cases h
      by_cases ht : 0 < t
      · cases job with
        | none =>
          simp [QueueJob.timer, Sys.afterCall, ErrorLog, ht] at h
          subst h
          simpa using Step.timerPanic s k _ hk rfl ht rfl
        | some j =>
          simp [QueueJob.timer, Sys.afterCall, ErrorLog, ht] at h
          subst h
          simpa using Step.timer s k _ j hk rfl ht rfl
      · simp [QueueJob.timer, Sys.afterCall, ht] at h
  | sendClosed k =>
    simp only at h
    cases hk : s.calls[k]? with
    | none => simp [hk] at h
    | some c =>
      obtain ⟨job, t, pc⟩ := c
      simp only [hk] at h
      cases pc <;> simp only at h <;> try cases h
      cases hjc : s.w.JobChannelClosed
      · simp [QueueJob.sendClosed, Sys.afterCall, hjc] at h
      · simp [QueueJob.sendClosed, Sys.afterCall, hjc] at h
        subst h
        simpa using Step.sendClosed s k _ hk rfl hjc
  | handoff k i =>
    simp only at h
    cases hk : s.calls[k]? with
    | none => simp [hk] at h
    | some c =>
      obtain ⟨job, t, pc⟩ := c
      cases hi : s.workers[i]? with
      | none => simp [hk, hi] at h
      | some p =>
        simp only [hk, hi] at h
        cases p <;> simp only at h <;> try cases h
        cases pc <;> simp only at h <;> try cases h
        cases hjc : s.w.JobChannelClosed
        · simp [hjc] at h
          subst h
          simpa [hcr] using Step.handoff s k i _ hk hi rfl hjc
        · simp [hjc] at h
  | advertise i =>
    simp only at h
    cases hi : s.workers[i]? with
    | none => simp [hi] at h
    | some p =>
      simp only [hi] at h
      cases p <;> simp only at h <;> try cases h
      cases hcl : s.w.WorkerPool.closed
      · by_cases hlen : s.w.WorkerPool.len < s.w.WorkerPool.cap
        · simp [workerAdvertise, Sys.afterWorker, hlen, hcl] at h
          subst h
          simpa [hcl] using Step.advertise s i hi hcl hlen
        · simp [workerAdvertise, Sys.afterWorker, hlen, hcl] at h
      · simp [workerAdvertise, Sys.afterWorker, hcl] at h
        subst h
        simpa using Step.advertisePanic s i hi hcl
  | advertiseTo i k =>
    simp only at h
    cases hk : s.calls[k]? with
    | none =>
      cases hi : s.workers[i]? with
      | none => simp [hk, hi] at h
      | some p => cases p <;> simp [hk, hi] at h
    | some c =>
      obtain ⟨job, t, pc⟩ := c
      cases hi : s.workers[i]? with
      | none => simp [hk, hi] at h
      | some p =>
        simp only [hk, hi] at h
        cases p <;> simp only at h <;> try cases h
        cases pc <;> simp only at h <;> try cases h
        by_cases hcap : s.w.WorkerPool.cap = 0 ∧ s.w.WorkerPool.closed = false
        · simp only [hcap, and_self, if_true, Option.some.injEq] at h
          subst h
          simpa [hcr] using Step.advertiseTo s i k _ hi hk rfl hcap.1 hcap.2
        · simp [hcap] at h
  | receiveClosed i =>
    simp only at h
    cases hi : s.workers[i]? with
    | none => simp [hi] at h
    | some p =>
      simp only [hi] at h
      cases p <;> simp only at h <;> try cases h
      cases hjc : s.w.JobChannelClosed
      · simp [workerReceiveClosed, Sys.afterWorker, hjc] at h
      · simp [workerReceiveClosed, Sys.afterWorker, hjc] at h
        subst h
        simpa using Step.receiveNil s i hi hjc
  | quit i =>
    simp only at h
    cases hi : s.workers[i]? with
    | none => simp [hi] at h
    | some p =>
      simp only [hi] at h
      cases p <;> simp only at h <;> try cases h
      cases hq : s.w.quitClosed
      · simp [workerQuit, Sys.afterWorker, hq] at h
      · simp [workerQuit, Sys.afterWorker, hq] at h
        subst h
        simpa using Step.quit s i hi hq
  | execute i =>
    simp only at h
    cases hi : s.workers[i]? with
    | none => simp [hi] at h
    | some p =>
      simp only [hi] at h
      cases p <;> simp only at h <;> try cases h
      rename_i job
      cases job with
      | none =>
        simp [workerExecute, Sys.afterWorker] at h
        subst h
        simpa using Step.executePanic s i hi
      | some j =>
        cases he : j.execute with
        | none =>
          simp [workerExecute, Sys.afterWorker, he] at h
          subst h
          simpa using Step.execute s i j hi he
        | some e =>
          simp [workerExecute, Sys.afterWorker, he, ErrorLog] at h
          subst h
          simpa using Step.executeError s i j e hi he
  | watch =>
    simp only at h
    cases hw : s.watcher with
    | none => simp [hw] at h
    | some pc =>
      simp only [hw] at h
      cases pc
      · cases hq : s.w.quitClosed
        · simp [watcherMove, Sys.afterWatcher, hq] at h
        · cases hmux : s.w.muxLocked
          · simp [watcherMove, Sys.afterWatcher, hq, hmux] at h
            subst h
            simpa [hq] using Step.watchLock s hw hq hmux
          · simp [watcherMove, Sys.afterWatcher, hq, hmux] at h
      · cases hcl : s.w.WorkerPool.closed
        · simp [watcherMove, Sys.afterWatcher, hcl] at h
          subst h
          simpa using Step.watchClosePool s hw hcl
        · simp [watcherMove, Sys.afterWatcher, hcl] at h
          subst h
          simpa using Step.watchClosePoolPanic s hw hcl
      · cases hjc : s.w.JobChannelClosed
        · simp [watcherMove, Sys.afterWatcher, hjc] at h
          subst h
          simpa using Step.watchCloseJob s hw hjc
        · simp [watcherMove, Sys.afterWatcher, hjc] at h
          subst h
          simpa using Step.watchCloseJobPanic s hw hjc
      · simp [watcherMove, Sys.afterWatcher] at h
      · simp [watcherMove, Sys.afterWatcher] at h

/-! ### Runs -/

theorem run_append (as bs : List Action) (s : Sys) :
    run (as ++ bs) s = (run as s).bind (run bs) := by
  induction as generalizing s with
  | nil => rfl
  | cons a as ih =>
    simp only [List.cons_append, run]
    cases step a s with
    | none => rfl
    | some s1 => exact ih s1

theorem run_cons_some {a : Action} {as : List Action} {s s2 : Sys}
    (h : run (a :: as) s = some s2) : ∃ s1, step a s = some s1 ∧ run as s1 = some s2 := by
  simp only [run] at h
  cases hs : step a s with
  | none => simp [hs] at h
  | some s1 => exact ⟨s1, rfl, by simpa [hs] using h⟩

/-- A property kept by every move is kept by every run. -/
theorem run_invariant (P : Sys → Prop)
    (hstep : ∀ a s s1, Step a s s1 → s.crashed = false → P s → P s1)
    {as : List Action} {s s1 : Sys} (hrun : run as s = some s1) (hs : P s) : P s1 := by
  induction as generalizing s with
  | nil =>
    simp only [run, Option.some.injEq] at hrun
    exact hrun ▸ hs
  | cons a as ih =>
    obtain ⟨s2, h1, h2⟩ := run_cons_some hrun
    exact ih h2 (hstep a s s2 (step_sound h1).2 (step_sound h1).1 hs)

/-! ### `CreateWorker` and `StartServer` -/

theorem makeChan_ok (memory : Nat) (n : Int) (h0 : 0 ≤ n) (h1 : n ≤ chanSizeLimit)
    (h2 : n ≤ memory) :
    makeChan memory n = some { cap := n.toNat, len := 0, closed := false } := by
  unfold makeChan
  rw [if_neg (by omega)]

theorem makeChan_panic (memory : Nat) (n : Int)
    (h : n < 0 ∨ (chanSizeLimit : Int) < n ∨ (memory : Int) < n) :
    makeChan memory n = none := by
  unfold makeChan
  rw [if_pos h]

theorem CreateWorker_parseTo (memory n : Nat) (hn : n ≤ chanSizeLimit) (hm : n ≤ memory) :
    CreateWorker memory none (parseTo n) none = .ok (newPool n) := by
  simp only [CreateWorker, parseTo,
    makeChan_ok memory (n : Int) (by omega) (by omega) (by omega), newPool, Int.toNat_ofNat]

theorem StartServer_newPool (n : Nat) :
    StartServer (newPool n) noOptions = .ok (started n) := by
  simp [StartServer, newPool, noOptions, started, Sys.created]

/-- C2, as stated, fails: with `MaxWorkers` resolved to 0 (which is below 1)
`CreateWorker` returns no configuration error but a pool, whose dispatch
queue is unbuffered. -/
theorem CreateWorker_zero_succeeds :
    CreateWorker 1024 none (parseTo 0) none = .ok (newPool 0) ∧
      (newPool 0).Config = some { MaxWorkers := 0 } ∧ (newPool 0).WorkerPool.cap = 0 :=
  ⟨rfl, rfl, rfl⟩

/-- C2, amended: `CreateWorker` does not validate the resolved `MaxWorkers`.
When the environment, the parse and the logger succeed, it returns for every
`MaxWorkers` from 0 up to the largest channel size the runtime can allocate
(at most `chanSizeLimit`, and no more than the memory at hand holds; so for
every such `MaxWorkers >= 1`, and for 0 as well) a fresh pool, not stopped,
whose dispatch queue is open, empty and of capacity `MaxWorkers`; for
`MaxWorkers < 0` and for `MaxWorkers` beyond that size it returns no error:
allocating the dispatch queue does not return. -/
theorem CreateWorker_maxWorkers (memory : Nat)
    (parse : WorkerConfig → Except String WorkerConfig)
    (config : WorkerConfig) (hparse : parse { MaxWorkers := maxWorkers } = .ok config) :
    (0 ≤ config.MaxWorkers → config.MaxWorkers ≤ chanSizeLimit →
      config.MaxWorkers ≤ memory →
      ∃ w, CreateWorker memory none parse none = .ok w ∧
        w.Config = some config ∧ (w.WorkerPool.cap : Int) = config.MaxWorkers ∧
        w.WorkerPool.len = 0 ∧ w.WorkerPool.closed = false ∧
        w.JobChannelClosed = false ∧ w.quitClosed = false ∧ w.isStopped = false ∧
        w.Logger = []) ∧
    (config.MaxWorkers < 0 ∨ (chanSizeLimit : Int) < config.MaxWorkers ∨
        (memory : Int) < config.MaxWorkers →
      CreateWorker memory none parse none = .panic) := by
  constructor
  · intro h h1 h2
    refine ⟨{ Config := some config, Logger := []
              WorkerPool := { cap := config.MaxWorkers.toNat, len := 0, closed := false }
              JobChannelClosed := false, quitClosed := false, isStopped := false
              muxLocked := false },
      by simp only [CreateWorker, hparse, makeChan_ok memory _ h h1 h2], rfl, ?_, rfl, rfl,
      rfl, rfl, rfl, rfl⟩
    simpa using h
  · intro h
    simp only [CreateWorker, hparse, makeChan_panic memory _ h]

/-- C2, amended, at `MaxWorkers = 3` and, beyond the size limit, at
`MaxWorkers = 2^62`. -/
theorem CreateWorker_maxWorkers_witness :
    parseTo 3 { MaxWorkers := maxWorkers } = .ok { MaxWorkers := 3 } ∧
      (∃ w, CreateWorker 1024 none (parseTo 3) none = .ok w ∧
        w.Config = some { MaxWorkers := 3 } ∧ (w.WorkerPool.cap : Int) = 3 ∧
        w.WorkerPool.len = 0 ∧ w.WorkerPool.closed = false ∧
        w.JobChannelClosed = false ∧ w.quitClosed = false ∧ w.isStopped = false ∧
        w.Logger = []) ∧
      parseTo (2 ^ 62) { MaxWorkers := maxWorkers } = .ok { MaxWorkers := 2 ^ 62 } ∧
      CreateWorker (2 ^ 63) none (parseTo (2 ^ 62)) none = .panic :=
  ⟨rfl,
    (CreateWorker_maxWorkers 1024 (parseTo 3) { MaxWorkers := 3 } rfl).1 (by decide)
      (by decide) (by decide),
    rfl,
    (CreateWorker_maxWorkers (2 ^ 63) (parseTo (2 ^ 62)) { MaxWorkers := 2 ^ 62 } rfl).2
      (Or.inr (Or.inl (by decide)))⟩

/-! ### After shutdown -/

theorem Step.stopped {a : Action} {s s1 : Sys} (h : Step a s s1) (hs : Stopped s) :
    Stopped s1 := by
  obtain ⟨h1, h2, h3⟩ := hs
  cases h <;> simp_all [Stopped]

theorem run_stopped {as : List Action} {s s1 : Sys} (hrun : run as s = some s1)
    (hs : Stopped s) : Stopped s1 :=
  run_invariant Stopped (fun _ _ _ h _ => h.stopped) hrun hs

/-- C1, as stated, fails.  On a started pool with one worker, a `QueueJob`
call made after `StopServer` returned (and before the watcher has run) finds
the pool not stopped, takes the worker's handoff slot, hands its job to the
worker and returns nil.  On a pool that was created and never started,
`QueueJob` with a positive timeout after `StopServer` returns the timeout
error.  And once the pool is marked stopped, a nil job makes `QueueJob`
panic instead of returning the pool-stopped error. -/
theorem QueueJob_after_StopServer_not_stopped :
    (run [.advertise 0, .stop, .queue (some jobA) 0, .check 0, .receive 0, .handoff 0 0]
        (started 1)).map (fun s => (s.w.quitClosed, s.calls, s.workers, s.handoffs)) =
      some (true, [{ job := some jobA, timeout := 0, pc := .returned none }],
        [.exec (some jobA)], [(0, 0)]) ∧
    (run [.stop, .queue (some jobA) 5, .check 0, .timer 0]
        (Sys.created (newPool 1))).map (fun s => (s.w.quitClosed, s.calls)) =
      some (true, [{ job := some jobA, timeout := 5, pc := .returned (some (.timedOut 5)) }]) ∧
    (run [.stop, .watch, .watch, .watch, .queue none 0, .check 0]
        (started 1)).map (fun s => (s.w.isStopped, s.calls, s.crashed)) =
      some (true, [{ job := none, timeout := 0, pc := .panicked }], true) :=
  ⟨rfl, rfl, rfl⟩

/-- C1, amended: once the shutdown watcher has marked the pool stopped and
released the lock (as it does after `StopServer` on a started pool), the pool
stays so in every later state, and every `QueueJob` call made from then on
with a non-nil job fails with the pool-stopped error, for every timeout
(positive, zero or negative): its stopped check returns the error and logs it
once, the dispatch queue, the workers and the hand-offs are untouched, and
the call has no other move (it never waits on the dispatch queue or a
timer). -/
theorem QueueJob_after_watcher_stopped (s s1 : Sys) (as : List Action) (j : JobImpl)
    (timeout : Int) (hst : s.w.isStopped = true) (hmux : s.w.muxLocked = false)
    (hw : s.watcher = some .done) (hrun : run as s = some s1) (hc : s1.crashed = false) :
    s1.w.isStopped = true ∧
    run [.queue (some j) timeout, .check s1.calls.length] s1 =
      some { s1 with
        w := { s1.w with
          Logger := s1.w.Logger ++
            [{ context := j.context, jobName := j.name, err := .stoppedWorker }] }
        calls := s1.calls ++
          [{ job := some j, timeout := timeout, pc := .returned (some .stoppedWorker) }] } ∧
    ∀ s2, step (.queue (some j) timeout) s1 = some s2 →
      step (.receive s1.calls.length) s2 = none ∧ step (.timer s1.calls.length) s2 = none ∧
      step (.sendClosed s1.calls.length) s2 = none ∧
      ∀ i, step (.handoff s1.calls.length i) s2 = none := by
  obtain ⟨h1, h2, h3⟩ := run_stopped hrun ⟨hst, hmux, hw⟩
  refine ⟨h1, ?_, ?_⟩
  · simp [run, step, hc, Sys.afterCall, QueueJob.check, h1, h2, ErrorLog]
  · intro s2 hs2
    simp only [step, hc, Bool.false_eq_true, if_false, Option.some.injEq] at hs2
    subst hs2
    refine ⟨by simp [step, hc], by simp [step, hc], by simp [step, hc], ?_⟩
    intro i
    simp only [step, hc, Bool.false_eq_true, if_false, List.getElem?_concat_length]
    split
    · rename_i c hc1 _
      cases hc1
      rfl
    · rfl

/-- C1, amended, on the pool of one worker shut down by `StopServer` and the
watcher, after its worker has left: `QueueJob(B, 0)` returns the pool-stopped
error. -/
theorem QueueJob_after_watcher_stopped_witness :
    run [.advertise 0, .stop, .watch, .watch, .watch] (started 1) = some shutDown ∧
      shutDown.w.isStopped = true ∧ shutDown.w.muxLocked = false ∧
      shutDown.watcher = some .done ∧
      run [.quit 0] shutDown = some { shutDown with workers := [.exited] } ∧
      run [.queue (some jobB) 0, .check 0] { shutDown with workers := [.exited] } =
        some { shutDown with
          w := { shutDown.w with
            Logger := [{ context := some 7, jobName := "B", err := .stoppedWorker }] }
          workers := [.exited]
          calls := [{ job := some jobB, timeout := 0, pc := .returned (some .stoppedWorker) }] } :=
  ⟨rfl, rfl, rfl, rfl, rfl,
    (QueueJob_after_watcher_stopped shutDown { shutDown with workers := [.exited] }
      [.quit 0] jobB 0 rfl rfl rfl rfl rfl).2.1⟩

/-! ### `StopServer` -/

/-- C9, as stated, fails: the second `StopServer` on a pool closes the closed
`quit` channel, which panics; in the running program the second call ends
the program. -/
theorem StopServer_second_call_panics :
    (StopServer (newPool 1)).bind StopServer = none ∧
      (run [.stop, .stop] (started 1)).map (fun s => s.crashed) = some true :=
  ⟨rfl, rfl⟩

/-- C9, amended: `StopServer` does not guard the shutdown signal.  On every
pool the first call closes `quit` and changes nothing else; a second call on
the same pool closes the closed channel, which panics, and in the running
program ends it. -/
theorem StopServer_unguarded (w w1 : Worker) (h : StopServer w = some w1) :
    w1 = { w with quitClosed := true } ∧ StopServer w1 = none ∧
      ∀ s : Sys, s.w = w1 → s.crashed = false →
        step .stop s = some { s with crashed := true } := by
  unfold StopServer at h
  split at h
  · cases h
  · cases h
    refine ⟨rfl, by simp [StopServer], ?_⟩
    intro s hs hc
    simp [step, hc, StopServer, hs]

/-- C9, amended, on `newPool 2`. -/
theorem StopServer_unguarded_witness :
    StopServer (newPool 2) = some { newPool 2 with quitClosed := true } ∧
      StopServer { newPool 2 with quitClosed := true } = none :=
  ⟨rfl, (StopServer_unguarded (newPool 2) _ rfl).2.1⟩

/-! ### A job that fails -/

theorem Chan.eta_open (c : Chan) (h : c.closed = false) :
    ({ cap := c.cap, len := c.len, closed := false } : Chan) = c := by
  cases c
  simp_all

theorem handoff_result {k i : Nat} {s s1 : Sys} (h : step (.handoff k i) s = some s1) :
    ∃ c, s.calls[k]? = some c ∧ c.pc = .send ∧
      s1.calls[k]? = some { c with pc := .returned none } ∧
      s1.workers[i]? = some (.exec c.job) := by
  have hs := (step_sound h).2
  cases hs with
  | handoff _ _ _ c hk hi hpc hopen =>
    refine ⟨c, hk, hpc, ?_, ?_⟩
    · have hlt : k < s.calls.length := by
        rcases Nat.lt_or_ge k s.calls.length with h1 | h1
        · exact h1
        · rw [List.getElem?_eq_none h1] at hk
          cases hk
      simp [hlt]
    · have hlt : i < s.workers.length := by
        rcases Nat.lt_or_ge i s.workers.length with h1 | h1
        · exact h1
        · rw [List.getElem?_eq_none h1] at hi
          cases hi
      simp [hlt]

/-- C4: a worker holding a job whose `Execute` returns an error `e` neither
panics nor returns.  Its move calls `ErrorLog` once, with that job and `e`
(one record is appended to the log, carrying the job's context, its name and
`e`), and takes the worker back to line 74, to advertise itself: the state
reached is the one reached when `Execute` returns nil, up to that one log
record and the job recorded as executed.  No call is touched, so the error
does not reach the enqueuer, whose call returned nil when the job was handed
over.  On a running pool the worker then advertises itself and is handed the
job of a further `QueueJob` call. -/
theorem worker_survives_failing_job (s : Sys) (i : Nat) (j : JobImpl) (e : Error)
    (hc : s.crashed = false) (hi : s.workers[i]? = some (.exec (some j)))
    (he : j.execute = some e) :
    step (.execute i) s =
      some { s with
        w := { s.w with
          Logger := s.w.Logger ++ [{ context := j.context, jobName := j.name, err := e }] }
        workers := s.workers.set i .advertise
        executed := s.executed ++ [j] } ∧
    step (.execute i)
        { s with workers := s.workers.set i (.exec (some { j with execute := none })) } =
      some { s with
        workers := s.workers.set i .advertise
        executed := s.executed ++ [{ j with execute := none }] } ∧
    (∀ k i1 s0, step (.handoff k i1) s0 = some s →
      ∃ c, s0.calls[k]? = some c ∧ c.pc = .send ∧
        s.calls[k]? = some { c with pc := .returned none } ∧
        s.workers[i1]? = some (.exec c.job)) ∧
    (∀ (j2 : Job) (timeout : Int), s.w.isStopped = false → s.w.muxLocked = false →
      s.w.WorkerPool.closed = false → s.w.JobChannelClosed = false →
      s.w.WorkerPool.len < s.w.WorkerPool.cap →
      run [.execute i, .advertise i, .queue j2 timeout, .check s.calls.length,
          .receive s.calls.length, .handoff s.calls.length i] s =
        some { s with
          w := { s.w with
            Logger := s.w.Logger ++ [{ context := j.context, jobName := j.name, err := e }] }
          workers := s.workers.set i (.exec j2)
          calls := s.calls ++ [{ job := j2, timeout := timeout, pc := .returned none }]
          executed := s.executed ++ [j]
          handoffs := s.handoffs ++ [(s.calls.length, i)] }) := by
  have hlt : i < s.workers.length := by
    rcases Nat.lt_or_ge i s.workers.length with h1 | h1
    · exact h1
    · rw [List.getElem?_eq_none h1] at hi
      cases hi
  refine ⟨?_, ?_, ?_, ?_⟩
  · simp [step, hc, hi, workerExecute, he, ErrorLog, Sys.afterWorker]
  · simp [step, hc, hlt, workerExecute, Sys.afterWorker]
  · intro k i1 s0 h
    exact handoff_result h
  · intro j2 timeout hst hmux hopen hjc hlen
    simp [run, step, hc, hi, hlt, workerExecute, he, ErrorLog, Sys.afterWorker, workerAdvertise,
      hopen, hlen, Sys.afterCall, QueueJob.check, hst, hmux, QueueJob.receive, hjc]
    exact Chan.eta_open _ hopen

/-- C4 on the pool of one worker that was handed the failing job F: the
worker logs the error, and is then handed job A. -/
theorem worker_survives_failing_job_witness :
    run [.advertise 0, .queue (some jobF) 0, .check 0, .receive 0, .handoff 0 0] (started 1) =
        some holdingF ∧
      holdingF.crashed = false ∧ holdingF.workers[0]? = some (.exec (some jobF)) ∧
      jobF.execute = some (.execError "failed") ∧
      step (.execute 0) holdingF =
        some { holdingF with
          w := { holdingF.w with
            Logger := [{ context := some 3, jobName := "F", err := .execError "failed" }] }
          workers := [.advertise]
          executed := [jobF] } ∧
      run [.execute 0, .advertise 0, .queue (some jobA) 0, .check 1, .receive 1, .handoff 1 0]
          holdingF =
        some { holdingF with
          w := { holdingF.w with
            Logger := [{ context := some 3, jobName := "F", err := .execError "failed" }] }
          workers := [.exec (some jobA)]
          calls := [{ job := some jobF, timeout := 0, pc := .returned none },
            { job := some jobA, timeout := 0, pc := .returned none }]
          executed := [jobF]
          handoffs := [(0, 0), (1, 0)] } :=
  ⟨rfl, rfl, rfl, rfl,
    (worker_survives_failing_job holdingF 0 jobF (.execError "failed") rfl rfl rfl).1,
    (worker_survives_failing_job holdingF 0 jobF (.execError "failed") rfl rfl rfl).2.2.2
      (some jobA) 0 rfl rfl rfl rfl (by decide)⟩

/-! ### Admission failures and the log -/

/-- C6 at its failing input.  One worker, busy with job A; a second
`QueueJob(B, 0)` passes the stopped check and waits; `StopServer` is called
and the watcher closes the channels; the waiting call finds the dispatch
queue closed and returns the closed-queue error.  `ErrorLog` has not been
called: the log is empty.  (On the two other error paths, one record is
written: for the timeout error, and for the pool-stopped error.) -/
theorem QueueJob_closed_queue_not_logged :
    (run [.advertise 0, .queue (some jobA) 0, .check 0, .receive 0, .handoff 0 0,
          .queue (some jobB) 0, .check 1, .stop, .watch, .watch, .watch, .receive 1]
        (started 1)).map (fun s => (s.calls, s.w.Logger)) =
      some ([{ job := some jobA, timeout := 0, pc := .returned none },
          { job := some jobB, timeout := 0, pc := .returned (some .channelClosed) }], []) ∧
    (run [.queue (some jobB) 5, .check 0, .timer 0]
        (started 1)).map (fun s => (s.calls, s.w.Logger)) =
      some ([{ job := some jobB, timeout := 5, pc := .returned (some (.timedOut 5)) }],
        [{ context := some 7, jobName := "B", err := .timedOut 5 }]) ∧
    (run [.queue (some jobB) 5, .check 0]
        shutDown).map (fun s => (s.calls, s.w.Logger)) =
      some ([{ job := some jobB, timeout := 5, pc := .returned (some .stoppedWorker) }],
        [{ context := some 7, jobName := "B", err := .stoppedWorker }]) :=
  ⟨rfl, rfl, rfl⟩

/-! ### A call caught by the shutdown -/

/-- C10 at its failing input.  One worker has advertised; `QueueJob(A, 0)`
passes the stopped check and receives the handoff slot; `StopServer` is
called and the watcher closes both channels; the call then sends the job on
the closed job channel and panics.  The same happens when the call receives
the slot only after the watcher has closed the dispatch queue, since the
closed queue still delivers the buffered slot with `ok = true`. -/
theorem QueueJob_send_on_closed_channel :
    (run [.advertise 0, .queue (some jobA) 0, .check 0, .receive 0, .stop, .watch, .watch,
          .watch, .sendClosed 0]
        (started 1)).map (fun s => (s.calls, s.w.JobChannelClosed, s.crashed)) =
      some ([{ job := some jobA, timeout := 0, pc := .panicked }], true, true) ∧
    (run [.advertise 0, .queue (some jobA) 0, .check 0, .stop, .watch, .watch, .watch,
          .receive 0, .sendClosed 0]
        (started 1)).map (fun s => (s.calls, s.w.JobChannelClosed, s.crashed)) =
      some ([{ job := some jobA, timeout := 0, pc := .panicked }], true, true) :=
  ⟨rfl, rfl⟩

/-! ### A nil job -/

/-- C8, as stated, fails.  On a stopped pool `QueueJob(nil, 0)` returns no
error: it panics in `ErrorLog`.  On a running pool with an idle worker
`QueueJob(nil, 0)` returns nil, the nil job is delivered to the worker, and
the worker panics when it calls `Execute`. -/
theorem QueueJob_nil_job_not_rejected :
    (run [.queue none 0, .check 0] shutDown).map (fun s => (s.calls, s.crashed)) =
      some ([{ job := none, timeout := 0, pc := .panicked }], true) ∧
    (run [.advertise 0, .queue none 0, .check 0, .receive 0, .handoff 0 0]
        (started 1)).map (fun s => (s.calls, s.workers, s.handoffs, s.crashed)) =
      some ([{ job := none, timeout := 0, pc := .returned none }], [.exec none], [(0, 0)],
        false) ∧
    (run [.advertise 0, .queue none 0, .check 0, .receive 0, .handoff 0 0, .execute 0]
        (started 1)).map (fun s => (s.workers, s.crashed)) =
      some ([.panicked], true) :=
  ⟨rfl, rfl, rfl⟩

/-- C8, amended: `QueueJob` has no nil check and treats a nil job like any
other job until a method is called on it.  For every timeout: on a pool
marked stopped the call panics inside `ErrorLog`; on a pool not stopped the
call passes the stopped check, and then panics inside `ErrorLog` when its
timer fires (timeout positive), or, when a handoff slot is queued and a
worker sits in its `select`, takes the slot, hands the nil job to that
worker and returns nil, after which the worker panics calling `Execute`. -/
theorem QueueJob_nil_job (s : Sys) (timeout : Int) (hc : s.crashed = false)
    (hmux : s.w.muxLocked = false) :
    (s.w.isStopped = true →
      run [.queue none timeout, .check s.calls.length] s =
        some { s with
          calls := s.calls ++ [{ job := none, timeout := timeout, pc := .panicked }]
          crashed := true }) ∧
    (s.w.isStopped = false → 0 < timeout →
      run [.queue none timeout, .check s.calls.length, .timer s.calls.length] s =
        some { s with
          calls := s.calls ++ [{ job := none, timeout := timeout, pc := .panicked }]
          crashed := true }) ∧
    (∀ i, s.w.isStopped = false → 0 < s.w.WorkerPool.len → s.w.JobChannelClosed = false →
      s.workers[i]? = some .select →
      run [.queue none timeout, .check s.calls.length, .receive s.calls.length,
          .handoff s.calls.length i] s =
        some { s with
          w := { s.w with WorkerPool := { s.w.WorkerPool with len := s.w.WorkerPool.len - 1 } }
          calls := s.calls ++ [{ job := none, timeout := timeout, pc := .returned none }]
          workers := s.workers.set i (.exec none)
          handoffs := s.handoffs ++ [(s.calls.length, i)] } ∧
      run [.queue none timeout, .check s.calls.length, .receive s.calls.length,
          .handoff s.calls.length i, .execute i] s =
        some { s with
          w := { s.w with WorkerPool := { s.w.WorkerPool with len := s.w.WorkerPool.len - 1 } }
          calls := s.calls ++ [{ job := none, timeout := timeout, pc := .returned none }]
          workers := s.workers.set i .panicked
          handoffs := s.handoffs ++ [(s.calls.length, i)]
          crashed := true }) := by
  refine ⟨?_, ?_, ?_⟩
  · intro hst
    simp [run, step, hc, Sys.afterCall, QueueJob.check, hmux, hst, ErrorLog]
  · intro hst ht
    simp [run, step, hc, Sys.afterCall, QueueJob.check, hmux, hst, ErrorLog, QueueJob.timer, ht]
  · intro i hst hlen hjc hi
    have hlt : i < s.workers.length := by
      rcases Nat.lt_or_ge i s.workers.length with h1 | h1
      · exact h1
      · rw [List.getElem?_eq_none h1] at hi
        cases hi
    constructor
    · simp [run, step, hc, Sys.afterCall, QueueJob.check, hmux, hst, QueueJob.receive, hlen,
        hjc, hi]
    · simp [run, step, hc, Sys.afterCall, QueueJob.check, hmux, hst, QueueJob.receive, hlen,
        hjc, hi, hlt, workerExecute, Sys.afterWorker]

/-- C8, amended, on the shut-down pool and on the pool whose worker waits in
its `select`. -/
theorem QueueJob_nil_job_witness :
    shutDown.crashed = false ∧ shutDown.w.muxLocked = false ∧ shutDown.w.isStopped = true ∧
      run [.queue none 9, .check 0] shutDown =
        some { shutDown with
          calls := [{ job := none, timeout := 9, pc := .panicked }]
          crashed := true } ∧
      run [.advertise 0] (started 1) = some advertised ∧
      run [.queue none 0, .check 0, .receive 0, .handoff 0 0, .execute 0] advertised =
        some { advertised with
          w := newPool 1
          calls := [{ job := none, timeout := 0, pc := .returned none }]
          workers := [.panicked]
          handoffs := [(0, 0)]
          crashed := true } :=
  ⟨rfl, rfl, rfl, (QueueJob_nil_job shutDown 9 rfl rfl).1 rfl, rfl,
    ((QueueJob_nil_job advertised 0 rfl rfl).2.2 0 rfl (by decide) rfl rfl).2⟩

/-! ### What a call can return -/

theorem lt_of_getElem?_some {α : Type} {l : List α} {k : Nat} {x : α} (h : l[k]? = some x) :
    k < l.length := by
  rcases Nat.lt_or_ge k l.length with h1 | h1
  · exact h1
  · rw [List.getElem?_eq_none h1] at h
    cases h

/-- Reading index `k` after writing index `k1`. -/
theorem getElem?_set_cases {α : Type} {l : List α} {k k1 : Nat} {c c1 : α} (x : α)
    (hk : l[k]? = some c) (hk1 : l[k1]? = some c1) :
    (k1 = k ∧ c1 = c ∧ (l.set k1 x)[k]? = some x) ∨ (k1 ≠ k ∧ (l.set k1 x)[k]? = some c) := by
  by_cases h : k1 = k
  · subst h
    left
    refine ⟨rfl, ?_, ?_⟩
    · rw [hk] at hk1
      cases hk1
      rfl
    · simp [lt_of_getElem?_some hk]
  · right
    exact ⟨h, by rw [List.getElem?_set_ne h]; exact hk⟩

theorem getElem?_append_some {α : Type} {l : List α} {k : Nat} {c : α} (x : α)
    (hk : l[k]? = some c) : (l ++ [x])[k]? = some c := by
  rw [List.getElem?_append_left (lt_of_getElem?_some hk)]
  exact hk

theorem Step.handedReturned {a : Action} {s s1 : Sys} (h : Step a s s1)
    (hs : HandedReturned s) : HandedReturned s1 := by
  have key : ∀ (k1 : Nat) (c1 : Call) (pc : CallPc), s.calls[k1]? = some c1 →
      c1.pc ≠ .returned none →
      ∀ k i, (k, i) ∈ s.handoffs →
        ∃ c, (s.calls.set k1 { c1 with pc := pc })[k]? = some c ∧ c.pc = .returned none := by
    intro k1 c1 pc hk1 hne k i hmem
    obtain ⟨c, hc, hpc⟩ := hs k i hmem
    rcases getElem?_set_cases { c1 with pc := pc } hc hk1 with ⟨_, h2, _⟩ | ⟨_, h2⟩
    · subst h2
      exact absurd hpc hne
    · exact ⟨c, h2, hpc⟩
  cases h with
  | queue _ job t =>
    intro k i hmem
    obtain ⟨c, hc, hpc⟩ := hs k i hmem
    exact ⟨c, getElem?_append_some _ hc, hpc⟩
  | handoff _ k1 i1 c1 hk1 hi hpc hopen =>
    intro k i hmem
    simp only [List.mem_append, List.mem_singleton, Prod.mk.injEq] at hmem
    rcases hmem with hmem | ⟨h1, _⟩
    · exact key k1 c1 (.returned none) hk1 (by simp [hpc]) k i hmem
    · subst h1
      exact ⟨{ c1 with pc := .returned none }, by simp [lt_of_getElem?_some hk1], rfl⟩
  | checkPass _ k1 c1 hk1 hpc => exact key k1 c1 _ hk1 (by simp [hpc])
  | checkStopped _ k1 c1 _ hk1 hpc => exact key k1 c1 _ hk1 (by simp [hpc])
  | checkPanic _ k1 c1 hk1 hpc => exact key k1 c1 _ hk1 (by simp [hpc])
  | receiveSlot _ k1 c1 hk1 hpc => exact key k1 c1 _ hk1 (by simp [hpc])
  | receiveClosed _ k1 c1 hk1 hpc => exact key k1 c1 _ hk1 (by simp [hpc])
  | timer _ k1 c1 _ hk1 hpc => exact key k1 c1 _ hk1 (by simp [hpc])
  | timerPanic _ k1 c1 hk1 hpc => exact key k1 c1 _ hk1 (by simp [hpc])
  | sendClosed _ k1 c1 hk1 hpc => exact key k1 c1 _ hk1 (by simp [hpc])
  | advertiseTo _ i1 k1 c1 _ hk1 hpc => exact key k1 c1 _ hk1 (by simp [hpc])
  | _ => exact hs

theorem run_handedReturned {as : List Action} {s s1 : Sys} (hrun : run as s = some s1)
    (hs : HandedReturned s) : HandedReturned s1 :=
  run_invariant HandedReturned (fun _ _ _ h _ => h.handedReturned) hrun hs

theorem Step.pastCheck {a : Action} {s s1 : Sys} {k : Nat} {job : Job} {t : Int}
    (h : Step a s s1) (hs : PastCheck k job t s) : PastCheck k job t s1 := by
  obtain ⟨pc, hk, hpc⟩ := hs
  -- a move of a call that is not a hand-off
  have key : ∀ (k1 : Nat) (c1 : Call) (pc1 : CallPc), s.calls[k1]? = some c1 →
      (k1 = k → c1 = { job := job, timeout := t, pc := pc } →
        pc1.pastCheck t (∃ i, (k, i) ∈ s.handoffs)) →
      ∃ pc2, (s.calls.set k1 { c1 with pc := pc1 })[k]? =
          some { job := job, timeout := t, pc := pc2 } ∧
        pc2.pastCheck t (∃ i, (k, i) ∈ s.handoffs) := by
    intro k1 c1 pc1 hk1 hnew
    rcases getElem?_set_cases { c1 with pc := pc1 } hk hk1 with ⟨h1, h2, h3⟩ | ⟨_, h3⟩
    · refine ⟨pc1, ?_, hnew h1 h2⟩
      rw [h3, h2]
    · exact ⟨pc, h3, hpc⟩
  cases h with
  | queue _ job1 t1 => exact ⟨pc, getElem?_append_some _ hk, hpc⟩
  | handoff _ k1 i1 c1 hk1 hi hpc1 hopen =>
    rcases getElem?_set_cases { c1 with pc := CallPc.returned none } hk hk1 with
      ⟨h1, h2, h3⟩ | ⟨h1, h3⟩
    · refine ⟨.returned none, ?_, ?_⟩
      · subst h2
        exact h3
      · subst h1
        exact ⟨i1, by simp⟩
    · refine ⟨pc, h3, ?_⟩
      have : (∃ i, (k, i) ∈ s.handoffs ++ [(k1, i1)]) ↔ ∃ i, (k, i) ∈ s.handoffs := by
        constructor
        · rintro ⟨i, hi⟩
          simp only [List.mem_append, List.mem_singleton, Prod.mk.injEq] at hi
          rcases hi with hi | ⟨h4, _⟩
          · exact ⟨i, hi⟩
          · exact absurd h4.symm h1
        · rintro ⟨i, hi⟩
          exact ⟨i, by simp [hi]⟩
      simpa only [this] using hpc
  | checkPass _ k1 c1 hk1 hpc1 =>
    refine key k1 c1 _ hk1 ?_
    intro _ h2
    subst h2
    simp only at hpc1
    subst hpc1
    exact hpc.elim
  | checkStopped _ k1 c1 _ hk1 hpc1 =>
    refine key k1 c1 _ hk1 ?_
    intro _ h2
    subst h2
    simp only at hpc1
    subst hpc1
    exact hpc.elim
  | checkPanic _ k1 c1 hk1 hpc1 =>
    refine key k1 c1 _ hk1 ?_
    intro _ h2
    subst h2
    simp only at hpc1
    subst hpc1
    exact hpc.elim
  | receiveSlot _ k1 c1 hk1 hpc1 =>
    refine key k1 c1 _ hk1 ?_
    intro _ h2
    subst h2
    simp only at hpc1
    subst hpc1
    exact hpc
  | receiveClosed _ k1 c1 hk1 hpc1 =>
    refine key k1 c1 _ hk1 ?_
    intro _ h2
    subst h2
    simp only at hpc1
    subst hpc1
    exact ⟨hpc, Or.inl rfl⟩
  | timer _ k1 c1 _ hk1 hpc1 ht =>
    refine key k1 c1 _ hk1 ?_
    intro _ h2
    subst h2
    simp only at hpc1
    subst hpc1
    exact ⟨hpc, Or.inr ⟨rfl, ht⟩⟩
  | timerPanic _ k1 c1 hk1 hpc1 =>
    refine key k1 c1 _ hk1 ?_
    intro _ h2
    subst h2
    simp only at hpc1
    subst hpc1
    exact hpc
  | sendClosed _ k1 c1 hk1 hpc1 =>
    refine key k1 c1 _ hk1 ?_
    intro _ h2
    subst h2
    simp only at hpc1
    subst hpc1
    exact hpc
  | advertiseTo _ i1 k1 c1 _ hk1 hpc1 =>
    refine key k1 c1 _ hk1 ?_
    intro _ h2
    subst h2
    simp only at hpc1
    subst hpc1
    exact hpc
  | _ => exact ⟨pc, hk, hpc⟩

theorem run_pastCheck {as : List Action} {s s1 : Sys} {k : Nat} {job : Job} {t : Int}
    (hrun : run as s = some s1) (hs : PastCheck k job t s) : PastCheck k job t s1 :=
  run_invariant (PastCheck k job t) (fun _ _ _ h _ => h.pastCheck) hrun hs

/-- The only move that makes a call return the timeout error is its own
timer move, taken in the `select` (no slot received yet) with a positive
timeout; it touches neither the dispatch queue nor a worker nor the
hand-offs. -/
theorem timedOut_only_by_timer {a : Action} {sa sb : Sys} {k : Nat} {c c1 : Call} {x : Int}
    (h : step a sa = some sb) (hk : sa.calls[k]? = some c)
    (hne : c.pc ≠ .returned (some (.timedOut x)))
    (hk1 : sb.calls[k]? = some c1) (hpc1 : c1.pc = .returned (some (.timedOut x))) :
    a = .timer k ∧ c.pc = .wait ∧ 0 < c.timeout ∧ x = c.timeout ∧
      sb.handoffs = sa.handoffs ∧ sb.workers = sa.workers ∧
      sb.w.WorkerPool = sa.w.WorkerPool := by
  have same : sa.calls[k]? = some c1 → False := by
    intro h1
    rw [hk] at h1
    cases h1
    exact hne hpc1
  have key : ∀ (k2 : Nat) (c2 : Call) (pc2 : CallPc), sa.calls[k2]? = some c2 →
      (sa.calls.set k2 { c2 with pc := pc2 })[k]? = some c1 →
      pc2 ≠ .returned (some (.timedOut x)) → False := by
    intro k2 c2 pc2 hk2 hset hpc2
    rcases getElem?_set_cases { c2 with pc := pc2 } hk hk2 with ⟨_, _, h3⟩ | ⟨_, h3⟩
    · rw [h3] at hset
      cases hset
      exact hpc2 hpc1
    · rw [h3] at hset
      cases hset
      exact hne hpc1
  have hs := (step_sound h).2
  cases hs with
  | queue _ job1 t1 =>
    rw [getElem?_append_some _ hk] at hk1
    cases hk1
    exact (hne hpc1).elim
  | timer _ k2 c2 j hk2 hpc2 ht hj =>
    rcases getElem?_set_cases { c2 with pc := CallPc.returned (some (.timedOut c2.timeout)) }
      hk hk2 with ⟨h1, h2, h3⟩ | ⟨_, h3⟩
    · rw [h3] at hk1
      cases hk1
      simp only [CallPc.returned.injEq, Option.some.injEq, Error.timedOut.injEq] at hpc1
      subst h1 h2
      exact ⟨rfl, hpc2, ht, hpc1.symm, rfl, rfl, rfl⟩
    · rw [h3] at hk1
      cases hk1
      exact (hne hpc1).elim
  | handoff _ k2 i2 c2 hk2 _ _ _ => exact (key k2 c2 _ hk2 hk1 (by simp)).elim
  | checkPass _ k2 c2 hk2 _ => exact (key k2 c2 _ hk2 hk1 (by simp)).elim
  | checkStopped _ k2 c2 _ hk2 _ => exact (key k2 c2 _ hk2 hk1 (by simp)).elim
  | checkPanic _ k2 c2 hk2 _ => exact (key k2 c2 _ hk2 hk1 (by simp)).elim
  | receiveSlot _ k2 c2 hk2 _ => exact (key k2 c2 _ hk2 hk1 (by simp)).elim
  | receiveClosed _ k2 c2 hk2 _ => exact (key k2 c2 _ hk2 hk1 (by simp)).elim
  | timerPanic _ k2 c2 hk2 _ => exact (key k2 c2 _ hk2 hk1 (by simp)).elim
  | sendClosed _ k2 c2 hk2 _ => exact (key k2 c2 _ hk2 hk1 (by simp)).elim
  | advertiseTo _ i2 k2 c2 _ hk2 _ => exact (key k2 c2 _ hk2 hk1 (by simp)).elim
  | _ => exact (same hk1).elim

/-- C7: the timer of `QueueJob` is armed only for a positive timeout.  Take
any program started with no hand-off made, any call `QueueJob job t` in it that
runs its stopped check on a pool not marked stopped, and any state `s2`
reached afterwards.  If `t <= 0` the timer move of the call is never
possible, and whenever the call has returned it returned nil, its job handed
to a worker, or the closed-queue error.  If `t > 0` a returned call returned
nil with its job handed over, or the closed-queue error, or the timeout
error, and then its job was handed to no worker.  In any program the timeout
error comes from the timer move alone, taken while the call waits in its
`select` before any slot is received.  (A call that has not returned waits,
or holds a slot, or has panicked on the closed job channel.) -/
theorem QueueJob_timer_armed_iff_positive (s0 s1 s2 : Sys) (as1 as2 : List Action) (k : Nat)
    (job : Job) (t : Int) (hhand : s0.handoffs = [])
    (h1 : run as1 s0 = some s1)
    (hk : s1.calls[k]? = some { job := job, timeout := t, pc := .check })
    (hns : s1.w.isStopped = false) (h2 : run (.check k :: as2) s1 = some s2) :
    ∃ pc, s2.calls[k]? = some { job := job, timeout := t, pc := pc } ∧
      (t ≤ 0 → step (.timer k) s2 = none ∧
        ∀ e, pc = .returned e →
          (e = none ∧ ∃ i, (k, i) ∈ s2.handoffs) ∨
          (e = some .channelClosed ∧ ∀ i, (k, i) ∉ s2.handoffs)) ∧
      (0 < t → ∀ e, pc = .returned e →
          (e = none ∧ ∃ i, (k, i) ∈ s2.handoffs) ∨
          (e = some .channelClosed ∧ ∀ i, (k, i) ∉ s2.handoffs) ∨
          (e = some (.timedOut t) ∧ ∀ i, (k, i) ∉ s2.handoffs)) ∧
      (∀ (a : Action) (sa sb : Sys) (c c1 : Call) (x : Int), step a sa = some sb →
        sa.calls[k]? = some c → c.pc ≠ .returned (some (.timedOut x)) →
        sb.calls[k]? = some c1 → c1.pc = .returned (some (.timedOut x)) →
        a = .timer k ∧ c.pc = .wait ∧ 0 < c.timeout ∧ x = c.timeout ∧
          sb.handoffs = sa.handoffs ∧ sb.workers = sa.workers ∧
          sb.w.WorkerPool = sa.w.WorkerPool) := by
  have hG : HandedReturned s1 := by
    refine run_handedReturned h1 ?_
    intro k i hmem
    rw [hhand] at hmem
    cases hmem
  obtain ⟨s1a, hstep, hrun⟩ := run_cons_some h2
  have hP1 : PastCheck k job t s1a := by
    have hnot : ¬ ∃ i, (k, i) ∈ s1.handoffs := by
      rintro ⟨i, hi⟩
      obtain ⟨c, hc, hpc⟩ := hG k i hi
      rw [hk] at hc
      cases hc
      cases hpc
    have hlt := lt_of_getElem?_some hk
    have hs := (step_sound hstep).2
    cases hs with
    | checkPass _ _ c hk1 hpc hmux hst =>
      rw [hk] at hk1
      cases hk1
      exact ⟨.wait, by simp [hlt], hnot⟩
    | checkStopped _ _ c _ hk1 hpc hmux hst => simp [hns] at hst
    | checkPanic _ _ c hk1 hpc hmux hst => simp [hns] at hst
  obtain ⟨pc, hk2, hpc⟩ := run_pastCheck hrun hP1
  refine ⟨pc, hk2, ?_, ?_, ?_⟩
  · intro ht
    constructor
    · have hnt : ¬ 0 < t := by omega
      unfold step
      split
      · rfl
      · simp only [hk2]
        cases pc <;> simp [QueueJob.timer, hnt, Sys.afterCall]
    · intro e he
      subst he
      cases e with
      | none => exact Or.inl ⟨rfl, hpc⟩
      | some e =>
        obtain ⟨hnh, hcl | ⟨_, hpos⟩⟩ := hpc
        · subst hcl
          exact Or.inr ⟨rfl, fun i hi => hnh ⟨i, hi⟩⟩
        · omega
  · intro ht e he
    subst he
    cases e with
    | none => exact Or.inl ⟨rfl, hpc⟩
    | some e =>
      obtain ⟨hnh, hcl | ⟨hto, _⟩⟩ := hpc
      · subst hcl
        exact Or.inr (Or.inl ⟨rfl, fun i hi => hnh ⟨i, hi⟩⟩)
      · subst hto
        exact Or.inr (Or.inr ⟨rfl, fun i hi => hnh ⟨i, hi⟩⟩)
  · intro a sa sb c c1 x hstep1 hka hne hkb hpc1
    exact timedOut_only_by_timer hstep1 hka hne hkb hpc1

/-- C7 on the pool of one worker: `QueueJob(A, 0)` passes the stopped check,
receives the slot and hands A over. -/
theorem QueueJob_timer_armed_iff_positive_witness :
    (started 1).handoffs = [] ∧
      run [.advertise 0, .queue (some jobA) 0] (started 1) =
        some { advertised with calls := [{ job := some jobA, timeout := 0, pc := .check }] } ∧
      run [.check 0, .receive 0, .handoff 0 0]
          { advertised with calls := [{ job := some jobA, timeout := 0, pc := .check }] } =
        some { started 1 with
          workers := [.exec (some jobA)]
          calls := [{ job := some jobA, timeout := 0, pc := .returned none }]
          handoffs := [(0, 0)] } ∧
      ∃ pc, [({ job := some jobA, timeout := 0, pc := .returned none } : Call)][0]? =
          some { job := some jobA, timeout := 0, pc := pc } ∧
        ∀ e, pc = .returned e →
          (e = none ∧ ∃ i, (0, i) ∈ [((0 : Nat), (0 : Nat))]) ∨
          (e = some .channelClosed ∧ ∀ i, (0, i) ∉ [((0 : Nat), (0 : Nat))]) := by
  refine ⟨rfl, rfl, rfl, ?_⟩
  obtain ⟨pc, h1, h2, _⟩ := QueueJob_timer_armed_iff_positive (started 1)
    { advertised with calls := [{ job := some jobA, timeout := 0, pc := .check }] }
    { started 1 with
      workers := [.exec (some jobA)]
      calls := [{ job := some jobA, timeout := 0, pc := .returned none }]
      handoffs := [(0, 0)] }
    [.advertise 0, .queue (some jobA) 0] [.receive 0, .handoff 0 0] 0 (some jobA) 0
    rfl rfl rfl rfl rfl
  exact ⟨pc, h1, (h2 (le_refl 0)).2⟩

/-! ### A running pool -/

/-- A property kept by every move but `StopServer` is kept by every run
without `StopServer`. -/
theorem run_invariant_no_stop (P : Sys → Prop)
    (hstep : ∀ a s s1, a ≠ .stop → Step a s s1 → s.crashed = false → P s → P s1)
    {as : List Action} {s s1 : Sys} (hno : Action.stop ∉ as) (hrun : run as s = some s1)
    (hs : P s) : P s1 := by
  induction as generalizing s with
  | nil =>
    simp only [run, Option.some.injEq] at hrun
    exact hrun ▸ hs
  | cons a as ih =>
    obtain ⟨s2, h1, h2⟩ := run_cons_some hrun
    simp only [List.mem_cons, not_or] at hno
    exact ih hno.2 h2
      (hstep a s s2 (fun h => hno.1 h.symm) (step_sound h1).2 (step_sound h1).1 hs)

theorem countP_set_of {α : Type} (p : α → Bool) (l : List α) (i : Nat) (x a : α)
    (h : l[i]? = some x) :
    (l.set i a).countP p + (if p x then 1 else 0) = l.countP p + (if p a then 1 else 0) := by
  induction l generalizing i with
  | nil => simp at h
  | cons y ys ih =>
    cases i with
    | zero =>
      simp only [List.getElem?_cons_zero, Option.some.injEq] at h
      subst h
      simp only [List.set_cons_zero, List.countP_cons]
      omega
    | succ i =>
      simp only [List.getElem?_cons_succ] at h
      have := ih i h
      simp only [List.set_cons_succ, List.countP_cons]
      omega

theorem Step.running {n : Nat} {a : Action} {s s1 : Sys} (hne : a ≠ .stop)
    (h : Step a s s1) (hs : Running n s) : Running n s1 := by
  obtain ⟨hq, hst, hmux, hcl, hjc, hw, hcap, hlen, hcount⟩ := hs
  cases h with
  | stop => exact absurd rfl hne
  | stopPanic _ hq1 => simp [hq] at hq1
  | queue _ job t =>
    refine ⟨hq, hst, hmux, hcl, hjc, hw, hcap, hlen, ?_⟩
    simpa [Call.isSend] using hcount
  | checkPass _ k c hk hpc =>
    refine ⟨hq, hst, hmux, hcl, hjc, hw, hcap, hlen, ?_⟩
    have := countP_set_of Call.isSend s.calls k c { c with pc := .wait } hk
    simp only [Call.isSend, hpc] at this hcount ⊢
    simp only [Bool.false_eq_true, if_false] at this
    omega
  | checkStopped _ k c _ hk hpc _ hst1 => simp [hst] at hst1
  | checkPanic _ k c hk hpc _ hst1 => simp [hst] at hst1
  | receiveSlot _ k c hk hpc hpos =>
    refine ⟨hq, hst, hmux, hcl, hjc, hw, hcap, hlen, ?_⟩
    have := countP_set_of Call.isSend s.calls k c { c with pc := .send } hk
    simp only [Call.isSend, hpc] at this hcount ⊢
    simp only [Bool.false_eq_true, if_false, if_true] at this
    omega
  | receiveClosed _ k c hk hpc _ hcl1 => simp [hcl] at hcl1
  | timer _ k c j hk hpc =>
    refine ⟨hq, hst, hmux, hcl, hjc, hw, hcap, hlen, ?_⟩
    have := countP_set_of Call.isSend s.calls k c
      { c with pc := .returned (some (.timedOut c.timeout)) } hk
    simp only [Call.isSend, hpc] at this hcount ⊢
    simp only [Bool.false_eq_true, if_false] at this
    omega
  | timerPanic _ k c hk hpc =>
    refine ⟨hq, hst, hmux, hcl, hjc, hw, hcap, hlen, ?_⟩
    have := countP_set_of Call.isSend s.calls k c { c with pc := .panicked } hk
    simp only [Call.isSend, hpc] at this hcount ⊢
    simp only [Bool.false_eq_true, if_false] at this
    omega
  | sendClosed _ k c hk hpc hjc1 => simp [hjc] at hjc1
  | handoff _ k i c hk hi hpc =>
    refine ⟨hq, hst, hmux, hcl, hjc, hw, hcap, by simpa using hlen, ?_⟩
    have h1 := countP_set_of Call.isSend s.calls k c { c with pc := .returned none } hk
    have h2 := countP_set_of WorkerPc.isSelect s.workers i .select (.exec c.job) hi
    simp only [Call.isSend, hpc, WorkerPc.isSelect] at h1 h2 hcount ⊢
    simp only [Bool.false_eq_true, if_false, if_true] at h1 h2
    omega
  | advertise _ i hi _ hroom =>
    refine ⟨hq, hst, hmux, hcl, hjc, hw, hcap, by simpa using hlen, ?_⟩
    have h2 := countP_set_of WorkerPc.isSelect s.workers i .advertise .select hi
    simp only [WorkerPc.isSelect] at h2 hcount ⊢
    simp only [Bool.false_eq_true, if_false, if_true] at h2
    omega
  | advertiseTo _ i k c hi hk hpc =>
    refine ⟨hq, hst, hmux, hcl, hjc, hw, hcap, by simpa using hlen, ?_⟩
    have h1 := countP_set_of Call.isSend s.calls k c { c with pc := .send } hk
    have h2 := countP_set_of WorkerPc.isSelect s.workers i .advertise .select hi
    simp only [Call.isSend, hpc, WorkerPc.isSelect] at h1 h2 hcount ⊢
    simp only [Bool.false_eq_true, if_false, if_true] at h1 h2
    omega
  | advertisePanic _ i hi hcl1 => simp [hcl] at hcl1
  | receiveNil _ i hi hjc1 => simp [hjc] at hjc1
  | quit _ i hi hq1 => simp [hq] at hq1
  | execute _ i j hi =>
    refine ⟨hq, hst, hmux, hcl, hjc, hw, hcap, by simpa using hlen, ?_⟩
    have h2 := countP_set_of WorkerPc.isSelect s.workers i (.exec (some j)) .advertise hi
    simp only [WorkerPc.isSelect] at h2 hcount ⊢
    simp only [Bool.false_eq_true, if_false] at h2
    omega
  | executeError _ i j e hi =>
    refine ⟨hq, hst, hmux, hcl, hjc, hw, hcap, by simpa using hlen, ?_⟩
    have h2 := countP_set_of WorkerPc.isSelect s.workers i (.exec (some j)) .advertise hi
    simp only [WorkerPc.isSelect] at h2 hcount ⊢
    simp only [Bool.false_eq_true, if_false] at h2
    omega
  | executePanic _ i hi =>
    refine ⟨hq, hst, hmux, hcl, hjc, hw, hcap, by simpa using hlen, ?_⟩
    have h2 := countP_set_of WorkerPc.isSelect s.workers i (.exec none) .panicked hi
    simp only [WorkerPc.isSelect] at h2 hcount ⊢
    simp only [Bool.false_eq_true, if_false] at h2
    omega
  | watchLock _ _ hq1 => simp [hq] at hq1
  | watchClosePool _ hw1 => simp [hw] at hw1
  | watchClosePoolPanic _ hw1 => simp [hw] at hw1
  | watchCloseJob _ hw1 => simp [hw] at hw1
  | watchCloseJobPanic _ hw1 => simp [hw] at hw1

theorem run_running {n : Nat} {as : List Action} {s s1 : Sys} (hno : Action.stop ∉ as)
    (hrun : run as s = some s1) (hs : Running n s) : Running n s1 :=
  run_invariant_no_stop (Running n) (fun _ _ _ hne h _ => h.running hne) hno hrun hs

theorem started_running (n : Nat) : Running n (started n) := by
  refine ⟨rfl, rfl, rfl, rfl, rfl, rfl, rfl, by simp [started], ?_⟩
  simp [started, Sys.created, newPool, List.countP_replicate, WorkerPc.isSelect]

theorem countP_isSelect_of_all_exec (ws : List WorkerPc)
    (h : ∀ p ∈ ws, p.isExec = true) : ws.countP WorkerPc.isSelect = 0 := by
  rw [List.countP_eq_zero]
  intro p hp
  have := h p hp
  cases p <;> simp_all [WorkerPc.isExec, WorkerPc.isSelect]

/-- A pool `CreateWorker` returned with `MaxWorkers = n` is `newPool n`. -/
theorem CreateWorker_eq_newPool {memory : Nat} {createEnv newLogger : Option String}
    {parse : WorkerConfig → Except String WorkerConfig} {w : Worker} {n : Nat}
    (h : CreateWorker memory createEnv parse newLogger = .ok w)
    (hcfg : w.Config = some { MaxWorkers := n }) : w = newPool n := by
  unfold CreateWorker at h
  split at h
  · cases h
  · split at h
    · cases h
    · rename_i config _
      split at h
      · cases h
      · split at h
        · cases h
        · rename_i pool hpool
          unfold makeChan at hpool
          split at hpool
          · cases hpool
          · cases hpool
            cases h
            simp only [Option.some.injEq] at hcfg
            subst hcfg
            simp [newPool]

/-- One round of `handOver` on a running pool whose dispatch queue is empty. -/
theorem run_handOver (s : Sys) (i : Nat) (j : JobImpl) (hc : s.crashed = false)
    (hst : s.w.isStopped = false) (hmux : s.w.muxLocked = false)
    (hcl : s.w.WorkerPool.closed = false) (hjc : s.w.JobChannelClosed = false)
    (hlen : s.w.WorkerPool.len = 0) (hcap : 0 < s.w.WorkerPool.cap)
    (hi : s.workers[i]? = some .advertise) :
    run (handOver s.calls.length i j) s =
      some { s with
        workers := s.workers.set i (.exec (some j))
        calls := s.calls ++ [{ job := some j, timeout := 0, pc := .returned none }]
        handoffs := s.handoffs ++ [(s.calls.length, i)] } := by
  have hlt := lt_of_getElem?_some hi
  simp [handOver, run, step, hc, hi, hlt, workerAdvertise, hcl, hlen, hcap, Sys.afterWorker,
    Sys.afterCall, QueueJob.check, hst, hmux, QueueJob.receive, hjc]
  rcases s with ⟨⟨cfg, lg, ⟨cap, len, cl⟩, jc, qc, st, mx⟩, ws, wt, cs, ex, ho, cr⟩
  simp_all

theorem run_enqueueAll (n : Nat) (js done : List JobImpl) :
    run (enqueueAll done.length js) (allBusy (n + 1) done js.length) =
      some (allBusy (n + 1) (done ++ js) 0) := by
  induction js generalizing done with
  | nil => simp [enqueueAll, run, allBusy]
  | cons j js ih =>
    simp only [enqueueAll, run_append]
    have hlen : (allBusy (n + 1) done (j :: js).length).calls.length = done.length := by
      simp [allBusy]
    have h := run_handOver (allBusy (n + 1) done (j :: js).length) done.length j rfl rfl rfl
      rfl rfl rfl (by simp [allBusy, started, Sys.created, newPool])
      (by
        simp only [allBusy]
        rw [List.getElem?_append_right (by simp)]
        simp [List.replicate_succ])
    rw [hlen] at h
    rw [h]
    have := ih (done ++ [j])
    simp only [List.length_append, List.length_singleton, List.append_assoc,
      List.singleton_append] at this
    rw [← this]
    show run _ _ = run _ _
    congr 1
    simp [allBusy, List.replicate_succ, List.range_succ, List.set_append_right]

theorem Step.onlyTimeouts {n : Nat} {a : Action} {s s1 : Sys} (h : Step a s s1)
    (hr : Running n s) (hs : OnlyTimeouts s) : OnlyTimeouts s1 := by
  obtain ⟨hq, hst, hmux, hcl, hjc, hw, _, _, _⟩ := hr
  have call : ∀ (k : Nat) (c : Call) (pc : CallPc),
      (∀ e, pc = .returned (some e) → e = .timedOut c.timeout ∧ 0 < c.timeout) →
      ∀ c1 ∈ s.calls.set k { c with pc := pc }, ∀ e, c1.pc = .returned (some e) →
        e = .timedOut c1.timeout ∧ 0 < c1.timeout := by
    intro k c pc hpc c1 hc1 e he
    rcases List.mem_or_eq_of_mem_set hc1 with h1 | h1
    · exact hs c1 h1 e he
    · subst h1
      exact hpc e he
  cases h with
  | queue _ job t =>
    intro c hc e he
    simp only [List.mem_append, List.mem_singleton] at hc
    rcases hc with hc | hc
    · exact hs c hc e he
    · subst hc
      cases he
  | checkPass _ k c => exact call k c _ (by simp)
  | checkStopped _ k c _ _ _ _ hst1 => simp [hst] at hst1
  | checkPanic _ k c => exact call k c _ (by simp)
  | receiveSlot _ k c => exact call k c _ (by simp)
  | receiveClosed _ k c _ _ _ hcl1 => simp [hcl] at hcl1
  | timer _ k c _ _ _ ht =>
    refine call k c _ ?_
    intro e he
    simp only [CallPc.returned.injEq, Option.some.injEq] at he
    exact ⟨he.symm, ht⟩
  | timerPanic _ k c => exact call k c _ (by simp)
  | sendClosed _ k c => exact call k c _ (by simp)
  | handoff _ k i c => exact call k c _ (by simp)
  | advertiseTo _ i k c => exact call k c _ (by simp)
  | _ => exact hs

theorem run_onlyTimeouts {n : Nat} {as : List Action} {s s1 : Sys} (hno : Action.stop ∉ as)
    (hrun : run as s = some s1) (hr : Running n s) (hs : OnlyTimeouts s) :
    OnlyTimeouts s1 :=
  (run_invariant_no_stop (fun s => Running n s ∧ OnlyTimeouts s)
    (fun _ _ _ hne h _ hp => ⟨h.running hne hp.1, h.onlyTimeouts hp.1 hp.2⟩) hno hrun
    ⟨hr, hs⟩).2

theorem Chan.eta_empty (c : Chan) (hcl : c.closed = false) (hlen : c.len = 0) :
    ({ cap := c.cap, len := 0, closed := false } : Chan) = c := by
  cases c
  simp_all

theorem Worker.eta_running (w : Worker) (hst : w.isStopped = false)
    (hmux : w.muxLocked = false) (hcl : w.WorkerPool.closed = false)
    (hjc : w.JobChannelClosed = false) (hlen : w.WorkerPool.len = 0) :
    ({ Config := w.Config, Logger := w.Logger
       WorkerPool := { cap := w.WorkerPool.cap, len := 0, closed := false }
       JobChannelClosed := false, quitClosed := w.quitClosed, isStopped := false
       muxLocked := false } : Worker) = w := by
  obtain ⟨_, _, ⟨_, _, _⟩, _, _, _, _⟩ := w
  simp_all

/-! ### One worker, calls in turn -/

theorem filterMap_set_of {α β : Type} (f : α → Option β) (l : List α) (k : Nat) (c x : α)
    (hk : l[k]? = some c) (hc : f c = none) (hx : f x = none) :
    (l.set k x).filterMap f = l.filterMap f := by
  induction l generalizing k with
  | nil => rfl
  | cons y ys ih =>
    cases k with
    | zero =>
      simp only [List.getElem?_cons_zero, Option.some.injEq] at hk
      subst hk
      simp [List.filterMap_cons, hc, hx]
    | succ k =>
      simp only [List.getElem?_cons_succ] at hk
      simp only [List.set_cons_succ, List.filterMap_cons, ih k hk]

theorem filterMap_set_last {α β : Type} (f : α → Option β) (l : List α) (k : Nat) (c x : α)
    (hk : l[k]? = some c) (hlast : k + 1 = l.length) (hc : f c = none) :
    (l.set k x).filterMap f = l.filterMap f ++ (f x).toList := by
  induction l generalizing k with
  | nil => simp at hlast
  | cons y ys ih =>
    cases k with
    | zero =>
      simp only [List.getElem?_cons_zero, Option.some.injEq] at hk
      subst hk
      have : ys = [] := by
        cases ys with
        | nil => rfl
        | cons _ _ => simp at hlast
      subst this
      cases hfx : f x <;> simp [List.filterMap_cons, hc, hfx]
    | succ k =>
      simp only [List.getElem?_cons_succ] at hk
      simp only [List.length_cons, add_left_inj] at hlast
      simp only [List.set_cons_succ, List.filterMap_cons, ih k hk hlast]
      cases f y <;> simp

theorem handedJobs_set_of (s : Sys) (k : Nat) (c : Call) (pc : CallPc)
    (hk : s.calls[k]? = some c) (hc : c.returnedNil = false)
    (hpc : pc ≠ .returned none) :
    (s.calls.set k { c with pc := pc }).filterMap
        (fun c => if c.returnedNil then c.job else none) = handedJobs s := by
  refine filterMap_set_of _ _ k c _ hk (by simp [hc]) ?_
  cases pc with
  | returned e =>
    cases e with
    | none => exact absurd rfl hpc
    | some _ => simp [Call.returnedNil]
  | _ => simp [Call.returnedNil]

/-- The second half of `Fifo` after a move of a call that keeps it from
having returned nil. -/
theorem fifo_calls_set (s : Sys) (k : Nat) (c x : Call) (hk : s.calls[k]? = some c)
    (hc : c.returnedNil = false)
    (h : ∀ k c, s.calls[k]? = some c → k + 1 < s.calls.length → c.returnedNil = true) :
    ∀ k1 c1, (s.calls.set k x)[k1]? = some c1 → k1 + 1 < (s.calls.set k x).length →
      c1.returnedNil = true := by
  intro k1 c1 hk1 hlt
  rw [List.length_set] at hlt
  by_cases hkk : k = k1
  · subst hkk
    have := h k c hk hlt
    rw [hc] at this
    cases this
  · rw [List.getElem?_set_ne hkk] at hk1
    exact h k1 c1 hk1 hlt

theorem worker_index_zero {ws : List WorkerPc} {p q : WorkerPc} {i : Nat} (hw : ws = [p])
    (hi : ws[i]? = some q) : i = 0 ∧ q = p := by
  subst hw
  cases i with
  | zero => simpa using hi.symm
  | succ i => simp at hi

theorem Step.fifo {a : Action} {s s1 : Sys} (h : Step a s s1) (hs : Fifo s)
    (hq : ∀ job t, a = .queue job t → s.calls.all Call.returnedNil = true) : Fifo s1 := by
  obtain ⟨⟨p, hw, hex⟩, hseq⟩ := hs
  -- a move of a call other than the hand-off
  have call : ∀ (k : Nat) (c : Call) (pc : CallPc) (w1 : Worker), s.calls[k]? = some c →
      c.returnedNil = false → pc ≠ .returned none →
      Fifo { s with w := w1, calls := s.calls.set k { c with pc := pc } } := by
    intro k c pc w1 hk hc hpc
    refine ⟨⟨p, hw, ?_⟩, fifo_calls_set s k c _ hk hc hseq⟩
    simp only [handedJobs, handedJobs_set_of s k c pc hk hc hpc]
    exact hex
  -- a move of the worker
  have worker : ∀ (i : Nat) (q q1 : WorkerPc) (w1 : Worker) (ex : List JobImpl),
      s.workers[i]? = some q → s.executed ++ q.inflight = ex ++ q1.inflight →
      Fifo { s with w := w1, workers := s.workers.set i q1, executed := ex } := by
    intro i q q1 w1 ex hi hin
    obtain ⟨rfl, rfl⟩ := worker_index_zero hw hi
    refine ⟨⟨q1, by simp [hw], ?_⟩, hseq⟩
    simp only [handedJobs] at hex ⊢
    rw [← hin]
    exact hex
  cases h with
  | stop => exact ⟨⟨p, hw, hex⟩, hseq⟩
  | stopPanic => exact ⟨⟨p, hw, hex⟩, hseq⟩
  | queue _ job t =>
    have hall := hq job t rfl
    rw [List.all_eq_true] at hall
    refine ⟨⟨p, hw, ?_⟩, ?_⟩
    · simp only [handedJobs, List.filterMap_append] at hex ⊢
      simpa [Call.returnedNil] using hex
    · intro k c hk hlt
      simp only [List.length_append, List.length_singleton, add_lt_add_iff_right] at hlt
      rw [List.getElem?_append_left hlt] at hk
      exact hall c (List.getElem?_mem hk)
  | checkPass _ k c hk hpc => exact call k c _ _ hk (by simp [Call.returnedNil, hpc]) (by simp)
  | checkStopped _ k c _ hk hpc =>
    exact call k c _ _ hk (by simp [Call.returnedNil, hpc]) (by simp)
  | checkPanic _ k c hk hpc =>
    have := call k c .panicked s.w hk (by simp [Call.returnedNil, hpc]) (by simp)
    exact this
  | receiveSlot _ k c hk hpc => exact call k c _ _ hk (by simp [Call.returnedNil, hpc]) (by simp)
  | receiveClosed _ k c hk hpc =>
    exact call k c _ _ hk (by simp [Call.returnedNil, hpc]) (by simp)
  | timer _ k c _ hk hpc => exact call k c _ _ hk (by simp [Call.returnedNil, hpc]) (by simp)
  | timerPanic _ k c hk hpc =>
    have := call k c .panicked s.w hk (by simp [Call.returnedNil, hpc]) (by simp)
    exact this
  | sendClosed _ k c hk hpc =>
    have := call k c .panicked s.w hk (by simp [Call.returnedNil, hpc]) (by simp)
    exact this
  | handoff _ k i c hk hi hpc =>
    obtain ⟨rfl, rfl⟩ := worker_index_zero hw hi
    have hc : c.returnedNil = false := by simp [Call.returnedNil, hpc]
    have hlast : k + 1 = s.calls.length := by
      have hlt := lt_of_getElem?_some hk
      by_contra hne
      have := hseq k c hk (by omega)
      rw [hc] at this
      cases this
    refine ⟨⟨.exec c.job, by simp [hw], ?_⟩, ?_⟩
    · simp only [handedJobs] at hex ⊢
      rw [filterMap_set_last _ _ k c _ hk hlast (by simp [hc]), ← hex]
      cases hj : c.job <;> simp [WorkerPc.inflight, Call.returnedNil]
    · intro k1 c1 hk1 hlt
      rw [List.length_set] at hlt
      have hkk : k ≠ k1 := by omega
      rw [List.getElem?_set_ne hkk] at hk1
      exact hseq k1 c1 hk1 hlt
  | advertise _ i hi => exact worker i _ _ _ _ hi (by simp [WorkerPc.inflight])
  | advertiseTo _ i k c hi hk hpc =>
    obtain ⟨rfl, rfl⟩ := worker_index_zero hw hi
    have hc : c.returnedNil = false := by simp [Call.returnedNil, hpc]
    refine ⟨⟨.select, by simp [hw], ?_⟩, fifo_calls_set s k c _ hk hc hseq⟩
    simp only [handedJobs, handedJobs_set_of s k c .send hk hc (by simp)]
    simpa [WorkerPc.inflight] using hex
  | advertisePanic _ i hi =>
    have := worker i _ .panicked s.w s.executed hi (by simp [WorkerPc.inflight])
    exact this
  | receiveNil _ i hi => exact worker i _ _ _ _ hi (by simp [WorkerPc.inflight])
  | quit _ i hi => exact worker i _ _ _ _ hi (by simp [WorkerPc.inflight])
  | execute _ i j hi => exact worker i _ _ _ _ hi (by simp [WorkerPc.inflight])
  | executeError _ i j e hi => exact worker i _ _ _ _ hi (by simp [WorkerPc.inflight])
  | executePanic _ i hi =>
    have := worker i _ .panicked s.w s.executed hi (by simp [WorkerPc.inflight])
    exact this
  | watchLock => exact ⟨⟨p, hw, hex⟩, hseq⟩
  | watchClosePool => exact ⟨⟨p, hw, hex⟩, hseq⟩
  | watchClosePoolPanic => exact ⟨⟨p, hw, hex⟩, hseq⟩
  | watchCloseJob => exact ⟨⟨p, hw, hex⟩, hseq⟩
  | watchCloseJobPanic => exact ⟨⟨p, hw, hex⟩, hseq⟩

theorem run_fifo {as : List Action} {s s1 : Sys} (hrun : run as s = some s1)
    (hseq : Sequential as s = true) (hs : Fifo s) : Fifo s1 := by
  induction as generalizing s with
  | nil =>
    simp only [run, Option.some.injEq] at hrun
    exact hrun ▸ hs
  | cons a as ih =>
    obtain ⟨s2, h1, h2⟩ := run_cons_some hrun
    simp only [Sequential, h1, Bool.and_eq_true] at hseq
    refine ih h2 hseq.2 ((step_sound h1).2.fifo hs ?_)
    intro job t ha
    subst ha
    exact hseq.1

theorem map_job_set (l : List Call) (k : Nat) (c : Call) (pc : CallPc)
    (hk : l[k]? = some c) :
    (l.set k { c with pc := pc }).map (fun c => c.job) = l.map (fun c => c.job) := by
  induction l generalizing k with
  | nil => rfl
  | cons y ys ih =>
    cases k with
    | zero =>
      simp only [List.getElem?_cons_zero, Option.some.injEq] at hk
      subst hk
      rfl
    | succ k =>
      simp only [List.getElem?_cons_succ] at hk
      simp only [List.set_cons_succ, List.map_cons, ih k hk]

theorem Step.calls_jobs {a : Action} {s s1 : Sys} (h : Step a s s1) :
    s1.calls.map (fun c => c.job) = s.calls.map (fun c => c.job) ++ enqueued [a] := by
  cases h <;>
    first
    | (simp only [enqueued, List.append_nil]
       exact map_job_set _ _ _ _ (by assumption))
    | simp [enqueued]

theorem enqueued_cons (a : Action) (as : List Action) :
    enqueued (a :: as) = enqueued [a] ++ enqueued as := by
  cases a <;> simp [enqueued]

theorem run_calls_jobs {as : List Action} {s s1 : Sys} (hrun : run as s = some s1) :
    s1.calls.map (fun c => c.job) = s.calls.map (fun c => c.job) ++ enqueued as := by
  induction as generalizing s with
  | nil =>
    simp only [run, Option.some.injEq] at hrun
    subst hrun
    simp [enqueued]
  | cons a as ih =>
    obtain ⟨s2, h1, h2⟩ := run_cons_some hrun
    rw [ih h2, (step_sound h1).2.calls_jobs, List.append_assoc, ← enqueued_cons]

theorem started_fifo : Fifo (started 1) := by
  refine ⟨⟨.advertise, rfl, rfl⟩, ?_⟩
  intro k c hk
  simp [started, Sys.created] at hk

theorem filterMap_job_of_all (cs : List Call) (js : List JobImpl)
    (hall : ∀ c ∈ cs, c.returnedNil = true) (hjobs : cs.map (fun c => c.job) = js.map some) :
    cs.filterMap (fun c => if c.returnedNil then c.job else none) = js := by
  induction cs generalizing js with
  | nil =>
    cases js with
    | nil => rfl
    | cons _ _ => simp at hjobs
  | cons c cs ih =>
    cases js with
    | nil => simp at hjobs
    | cons j js =>
      simp only [List.map_cons, List.cons.injEq] at hjobs
      have h1 := hall c (by simp)
      have h2 := ih js (fun c hc => hall c (by simp [hc])) hjobs.2
      simp [List.filterMap_cons, h1, hjobs.1, h2]

theorem Sequential_append (as bs : List Action) (s : Sys) :
    Sequential (as ++ bs) s =
      (Sequential as s &&
        match run as s with
        | some s1 => Sequential bs s1
        | none => true) := by
  induction as generalizing s with
  | nil => simp [Sequential, run]
  | cons a as ih =>
    simp only [List.cons_append, Sequential, run]
    cases step a s with
    | none => simp
    | some s1 => simp [ih s1, Bool.and_assoc]

theorem run_round (done : List JobImpl) (j : JobImpl) :
    run (handOver done.length 0 j ++ [.execute 0]) (allDone done) =
      some (allDone (done ++ [j])) := by
  have hlen : (allDone done).calls.length = done.length := by simp [allDone]
  have h := run_handOver (allDone done) 0 j rfl rfl rfl rfl rfl rfl
    (by simp [allDone, started, Sys.created, newPool]) rfl
  rw [hlen] at h
  rw [run_append, h]
  cases he : j.execute with
  | none =>
    simp [run, step, workerExecute, he, Sys.afterWorker, allDone, started, Sys.created,
      List.range_succ]
  | some e =>
    simp [run, step, workerExecute, he, ErrorLog, Sys.afterWorker, allDone, started,
      Sys.created, List.range_succ, newPool]

theorem sequential_round (done : List JobImpl) (j : JobImpl) :
    Sequential (handOver done.length 0 j ++ [.execute 0]) (allDone done) = true := by
  cases he : j.execute with
  | none =>
    simp [handOver, Sequential, step, workerExecute, he, Sys.afterWorker, Sys.afterCall,
      workerAdvertise, QueueJob.check, QueueJob.receive, allDone, started, Sys.created,
      newPool, Call.returnedNil]
  | some e =>
    simp [handOver, Sequential, step, workerExecute, he, ErrorLog, Sys.afterWorker,
      Sys.afterCall, workerAdvertise, QueueJob.check, QueueJob.receive, allDone, started,
      Sys.created, newPool, Call.returnedNil]

theorem run_enqueueInTurn (js done : List JobImpl) :
    run (enqueueInTurn done.length js) (allDone done) = some (allDone (done ++ js)) ∧
      Sequential (enqueueInTurn done.length js) (allDone done) = true ∧
      enqueued (enqueueInTurn done.length js) = js.map some := by
  induction js generalizing done with
  | nil => simp [enqueueInTurn, run, Sequential, enqueued]
  | cons j js ih =>
    have h := ih (done ++ [j])
    simp only [List.length_append, List.length_singleton, List.append_assoc,
      List.singleton_append] at h
    refine ⟨?_, ?_, ?_⟩
    · simp only [enqueueInTurn]
      rw [run_append, run_round]
      exact h.1
    · simp only [enqueueInTurn]
      rw [Sequential_append, sequential_round, run_round]
      simpa using h.2.1
    · simp only [enqueueInTurn, handOver, List.cons_append, List.nil_append, enqueued,
        List.map_cons]
      exact congrArg _ h.2.2

/-- C5: take the pool `CreateWorker` returns for `MaxWorkers = 1`, started by
`StartServer()`, and any run in which the jobs `js` are enqueued one after
the other, each `QueueJob` entered when every earlier call has returned nil.
In every state reached in which all the calls have returned nil and the
worker is not executing a job, the jobs whose `Execute` has returned are
exactly `js`, in the order enqueued, each once.  Such a run exists for every
`js`. -/
theorem single_worker_fifo (js : List JobImpl) (memory : Nat)
    (createEnv newLogger : Option String)
    (parse : WorkerConfig → Except String WorkerConfig) (w : Worker) (s0 : Sys)
    (hcreate : CreateWorker memory createEnv parse newLogger = .ok w)
    (hcfg : w.Config = some { MaxWorkers := 1 }) (hstart : StartServer w noOptions = .ok s0) :
    (∀ (as : List Action) (s : Sys), run as s0 = some s → Sequential as s0 = true →
      enqueued as = js.map some → (∀ c ∈ s.calls, c.pc = .returned none) →
      (∀ p ∈ s.workers, p.isExec = false) → s.executed = js) ∧
    (∃ (as : List Action) (s : Sys), run as s0 = some s ∧ Sequential as s0 = true ∧
      enqueued as = js.map some ∧ (∀ c ∈ s.calls, c.pc = .returned none) ∧
      (∀ p ∈ s.workers, p.isExec = false) ∧ s.executed = js) := by
  have hw : w = newPool 1 := CreateWorker_eq_newPool hcreate (by simpa using hcfg)
  subst hw
  rw [StartServer_newPool] at hstart
  cases hstart
  constructor
  · intro as s hrun hseq henq hall hidle
    obtain ⟨⟨p, hp, hex⟩, _⟩ := run_fifo hrun hseq started_fifo
    have hjobs := run_calls_jobs hrun
    simp only [started, Sys.created, List.map_nil, List.nil_append] at hjobs
    rw [henq] at hjobs
    have hin : p.inflight = [] := by
      have := hidle p (by simp [hp])
      cases p with
      | exec job => simp [WorkerPc.isExec] at this
      | _ => rfl
    rw [hin, List.append_nil] at hex
    rw [hex]
    exact filterMap_job_of_all s.calls js
      (fun c hc => by simp [Call.returnedNil, hall c hc]) hjobs
  · obtain ⟨h1, h2, h3⟩ := run_enqueueInTurn js []
    have h0 : allDone [] = started 1 := rfl
    simp only [List.length_nil, List.nil_append, h0] at h1 h2 h3
    refine ⟨enqueueInTurn 0 js, allDone js, h1, h2, h3, ?_, ?_, rfl⟩
    · intro c hc
      simp only [allDone, List.mem_map] at hc
      obtain ⟨j, _, rfl⟩ := hc
      rfl
    · intro p hp
      simp only [allDone, started, List.replicate, List.mem_singleton] at hp
      subst hp
      rfl

/-- C5 for the jobs A, F, B. -/
theorem single_worker_fifo_witness :
    CreateWorker 1024 none (parseTo 1) none = .ok (newPool 1) ∧
      (newPool 1).Config = some { MaxWorkers := 1 } ∧
      StartServer (newPool 1) noOptions = .ok (started 1) ∧
      run (enqueueInTurn 0 [jobA, jobF, jobB]) (started 1) =
        some (allDone [jobA, jobF, jobB]) ∧
      Sequential (enqueueInTurn 0 [jobA, jobF, jobB]) (started 1) = true ∧
      (allDone [jobA, jobF, jobB]).executed = [jobA, jobF, jobB] :=
  ⟨rfl, rfl, rfl, rfl, by decide,
    (single_worker_fifo [jobA, jobF, jobB] 1024 none none (parseTo 1) (newPool 1) (started 1)
      rfl rfl rfl).1 (enqueueInTurn 0 [jobA, jobF, jobB]) (allDone [jobA, jobF, jobB]) rfl
      (by decide) rfl (by decide) (by decide)⟩

/-! ### Workers after the shutdown -/

/-- C11 at its failing inputs, on a started pool of one worker.  First: the
worker is executing job A when `StopServer` is called and the watcher closes
the channels; the worker runs A to completion (A is recorded as executed),
loops back to line 74 and sends its handoff slot on the closed dispatch
queue, which panics.  Second: the worker has sent its slot at line 74 and
has not yet entered its `select` when `StopServer` is called and the watcher
closes the channels; the `select` then finds two cases ready, and taking the
job case, ready on the closed job channel, the worker receives a nil job and
panics calling `Execute` on it.  (Taking the `quit` case, the worker
returns.) -/
theorem worker_unsafe_after_StopServer :
    (run [.advertise 0, .queue (some jobA) 0, .check 0, .receive 0, .handoff 0 0, .stop,
          .watch, .watch, .watch, .execute 0]
        (started 1)).map (fun s => (s.w.WorkerPool.closed, s.workers, s.executed, s.crashed)) =
      some (true, [.advertise], [jobA], false) ∧
    (run [.advertise 0, .queue (some jobA) 0, .check 0, .receive 0, .handoff 0 0, .stop,
          .watch, .watch, .watch, .execute 0, .advertise 0]
        (started 1)).map (fun s => (s.w.WorkerPool.closed, s.workers, s.executed, s.crashed)) =
      some (true, [.panicked], [jobA], true) ∧
    (run [.advertise 0, .stop, .watch, .watch, .watch, .receiveClosed 0]
        (started 1)).map (fun s => (s.w.JobChannelClosed, s.workers, s.crashed)) =
      some (true, [.exec none], false) ∧
    (run [.advertise 0, .stop, .watch, .watch, .watch, .receiveClosed 0, .execute 0]
        (started 1)).map (fun s => (s.w.JobChannelClosed, s.workers, s.crashed)) =
      some (true, [.panicked], true) ∧
    (run [.advertise 0, .stop, .watch, .watch, .watch, .quit 0]
        (started 1)).map (fun s => (s.workers, s.crashed)) =
      some ([.exited], false) :=
  ⟨rfl, rfl, rfl, rfl, rfl⟩

/-! ### `SetMaxWorkersOption` -/

/-- C12, as stated, fails: for a negative `newMax`, and for a `newMax` beyond
the largest channel size the runtime allocates, the function returned by
`SetMaxWorkersOption` does not return; allocating the dispatch queue panics.
So does the assignment to `Config.MaxWorkers` on a pool whose `Config` is
nil. -/
theorem SetMaxWorkersOption_panics :
    SetMaxWorkersOption 1024 (newPool 1) (-1) = .panic ∧
      SetMaxWorkersOption (2 ^ 63) (newPool 1) (2 ^ 62) = .panic ∧
      SetMaxWorkersOption 1024 { newPool 1 with Config := none } 2 = .panic :=
  ⟨rfl, rfl, rfl⟩

/-- C12, amended: for every pool that has a `Config` and every `newMax` from
0 up to the largest channel size the runtime can allocate (at most
`chanSizeLimit`, and no more than the memory at hand holds), the function
returned by `SetMaxWorkersOption(newMax)` returns no error, sets
`Config.MaxWorkers` to `newMax`, replaces the dispatch queue by a fresh one,
open, empty (the slots queued in the old one are not carried over) and of
capacity `newMax`, and leaves the job channel, the shutdown signal, the
stopped flag, the lock and the logger unchanged; for `newMax < 0` and for
`newMax` beyond that size it does not return. -/
theorem SetMaxWorkersOption_frame (memory : Nat) (w : Worker) (config : WorkerConfig)
    (newMax : Int) (hcfg : w.Config = some config) :
    (0 ≤ newMax → newMax ≤ chanSizeLimit → newMax ≤ memory →
      ∃ w1, SetMaxWorkersOption memory w newMax = .ok w1 ∧
        w1.Config = some { MaxWorkers := newMax } ∧
        (w1.WorkerPool.cap : Int) = newMax ∧ w1.WorkerPool.len = 0 ∧
        w1.WorkerPool.closed = false ∧
        w1.JobChannelClosed = w.JobChannelClosed ∧ w1.quitClosed = w.quitClosed ∧
        w1.isStopped = w.isStopped ∧ w1.muxLocked = w.muxLocked ∧ w1.Logger = w.Logger) ∧
    (newMax < 0 ∨ (chanSizeLimit : Int) < newMax ∨ (memory : Int) < newMax →
      SetMaxWorkersOption memory w newMax = .panic) := by
  constructor
  · intro h h1 h2
    refine ⟨{ w with
        Config := some { MaxWorkers := newMax }
        WorkerPool := { cap := newMax.toNat, len := 0, closed := false } },
      by simp only [SetMaxWorkersOption, hcfg, makeChan_ok memory _ h h1 h2], rfl, ?_, rfl,
      rfl, rfl, rfl, rfl, rfl, rfl⟩
    simpa using h
  · intro h
    simp only [SetMaxWorkersOption, hcfg, makeChan_panic memory _ h]

/-- C12, amended, on the pool of one worker with one slot queued, resized
to 3. -/
theorem SetMaxWorkersOption_frame_witness :
    advertised.w.Config = some { MaxWorkers := 1 } ∧ advertised.w.WorkerPool.len = 1 ∧
      SetMaxWorkersOption 1024 advertised.w 3 =
        .ok { advertised.w with
          Config := some { MaxWorkers := 3 }
          WorkerPool := { cap := 3, len := 0, closed := false } } ∧
      ∃ w1, SetMaxWorkersOption 1024 advertised.w 3 = .ok w1 ∧
        w1.Config = some { MaxWorkers := 3 } ∧
        (w1.WorkerPool.cap : Int) = 3 ∧ w1.WorkerPool.len = 0 ∧
        w1.WorkerPool.closed = false ∧
        w1.JobChannelClosed = advertised.w.JobChannelClosed ∧
        w1.quitClosed = advertised.w.quitClosed ∧
        w1.isStopped = advertised.w.isStopped ∧ w1.muxLocked = advertised.w.muxLocked ∧
        w1.Logger = advertised.w.Logger :=
  ⟨rfl, rfl, rfl,
    (SetMaxWorkersOption_frame 1024 advertised.w { MaxWorkers := 1 } 3 rfl).1 (by decide)
      (by decide) (by decide)⟩

/-! ### A call in progress can complete -/

theorem countP_two_lt {α : Type} (p q : α → Bool) (l : List α) (x : α) (hx : x ∈ l)
    (hp : p x = false) (hq : q x = false) (hdisj : ∀ y, p y = true → q y = true → False) :
    l.countP p + l.countP q < l.length := by
  induction l with
  | nil => cases hx
  | cons y ys ih =>
    have hle : ∀ zs : List α, zs.countP p + zs.countP q ≤ zs.length := by
      intro zs
      induction zs with
      | nil => simp
      | cons z zs ihz =>
        simp only [List.countP_cons, List.length_cons]
        have := hdisj z
        cases hpz : p z <;> cases hqz : q z <;> simp_all <;> omega
    simp only [List.mem_cons] at hx
    simp only [List.countP_cons, List.length_cons]
    rcases hx with rfl | hx
    · have := hle ys
      simp only [hp, hq, Bool.false_eq_true, if_false]
      omega
    · have := ih hx
      have := hdisj y
      cases hpy : p y <;> cases hqy : q y <;> simp_all <;> omega

theorem exists_of_countP_two_lt {α : Type} (p q : α → Bool) (l : List α)
    (h : l.countP p + l.countP q < l.length) : ∃ x ∈ l, p x = false ∧ q x = false := by
  induction l with
  | nil => simp at h
  | cons y ys ih =>
    by_cases hy : p y = false ∧ q y = false
    · exact ⟨y, by simp, hy⟩
    · have : ys.countP p + ys.countP q < ys.length := by
        simp only [List.countP_cons, List.length_cons] at h
        cases hpy : p y <;> cases hqy : q y <;> simp_all <;> omega
      obtain ⟨x, hx, hpq⟩ := ih this
      exact ⟨x, by simp [hx], hpq⟩

theorem exists_select {ws : List WorkerPc} (h : 0 < ws.countP WorkerPc.isSelect) :
    ∃ i : Nat, ws[i]? = some .select := by
  rw [List.countP_pos_iff] at h
  obtain ⟨p, hp, hsel⟩ := h
  obtain ⟨i, hi⟩ := List.mem_iff_getElem?.1 hp
  refine ⟨i, ?_⟩
  cases p <;> simp_all [WorkerPc.isSelect]

theorem exists_advertise {s : Sys} (ha : Alive s) (hc : s.crashed = false)
    (h : s.workers.countP WorkerPc.isExec + s.workers.countP WorkerPc.isSelect <
      s.workers.length) : ∃ i : Nat, s.workers[i]? = some .advertise := by
  obtain ⟨p, hp, h1, h2⟩ := exists_of_countP_two_lt _ _ _ h
  rcases ha with ha | ha
  · rw [hc] at ha
    cases ha
  · obtain ⟨i, hi⟩ := List.mem_iff_getElem?.1 hp
    refine ⟨i, ?_⟩
    rcases ha p hp with h3 | h3 | h3
    · rw [hi, h3]
    · rw [h2] at h3
      cases h3
    · rw [h1] at h3
      cases h3

theorem Step.alive {n : Nat} {a : Action} {s s1 : Sys} (h : Step a s s1) (hr : Running n s)
    (hc : s.crashed = false) (hs : Alive s) : Alive s1 := by
  obtain ⟨hq, hst, hmux, hcl, hjc, hw, _, _, _⟩ := hr
  have hall : ∀ p ∈ s.workers, p = .advertise ∨ p.isSelect = true ∨ p.isExec = true := by
    rcases hs with hs | hs
    · rw [hc] at hs
      cases hs
    · exact hs
  have worker : ∀ (i : Nat) (q : WorkerPc),
      (q = .advertise ∨ q.isSelect = true ∨ q.isExec = true) →
      ∀ p ∈ s.workers.set i q, p = .advertise ∨ p.isSelect = true ∨ p.isExec = true := by
    intro i q hq1 p hp
    rcases List.mem_or_eq_of_mem_set hp with h1 | h1
    · exact hall p h1
    · rw [h1]
      exact hq1
  cases h with
  | stopPanic => exact Or.inl rfl
  | checkPanic => exact Or.inl rfl
  | timerPanic => exact Or.inl rfl
  | sendClosed => exact Or.inl rfl
  | advertisePanic => exact Or.inl rfl
  | executePanic => exact Or.inl rfl
  | watchClosePoolPanic => exact Or.inl rfl
  | watchCloseJobPanic => exact Or.inl rfl
  | handoff _ k i c => exact Or.inr (worker i _ (Or.inr (Or.inr rfl)))
  | advertise _ i => exact Or.inr (worker i _ (Or.inr (Or.inl rfl)))
  | advertiseTo _ i => exact Or.inr (worker i _ (Or.inr (Or.inl rfl)))
  | receiveNil _ i => exact Or.inr (worker i _ (Or.inr (Or.inr rfl)))
  | quit _ i _ hq1 => simp [hq] at hq1
  | execute _ i j => exact Or.inr (worker i _ (Or.inl rfl))
  | executeError _ i j e => exact Or.inr (worker i _ (Or.inl rfl))
  | _ => exact Or.inr hall

theorem Step.execHanded {n : Nat} {a : Action} {s s1 : Sys} (h : Step a s s1)
    (hr : Running n s) (hs : ExecHanded s) : ExecHanded s1 := by
  obtain ⟨hq, hst, hmux, hcl, hjc, hw, _, _, _⟩ := hr
  unfold ExecHanded at hs ⊢
  have call : ∀ (k : Nat) (c : Call) (pc : CallPc), s.calls[k]? = some c →
      c.returnedNil = false →
      s.calls.countP Call.returnedNil ≤
        (s.calls.set k { c with pc := pc }).countP Call.returnedNil := by
    intro k c pc hk hc
    have := countP_set_of Call.returnedNil s.calls k c { c with pc := pc } hk
    simp only [hc, Bool.false_eq_true, if_false] at this
    omega
  have worker : ∀ (i : Nat) (q q1 : WorkerPc), s.workers[i]? = some q →
      q1.isExec = false →
      (s.workers.set i q1).countP WorkerPc.isExec ≤ s.workers.countP WorkerPc.isExec := by
    intro i q q1 hi hq1
    have := countP_set_of WorkerPc.isExec s.workers i q q1 hi
    simp only [hq1, Bool.false_eq_true, if_false] at this
    omega
  cases h with
  | queue _ job t => simpa [Call.returnedNil] using hs
  | checkPass _ k c hk hpc => exact le_trans hs (call k c _ hk (by simp [Call.returnedNil, hpc]))
  | checkStopped _ k c _ hk hpc =>
    exact le_trans hs (call k c _ hk (by simp [Call.returnedNil, hpc]))
  | checkPanic _ k c hk hpc => exact le_trans hs (call k c _ hk (by simp [Call.returnedNil, hpc]))
  | receiveSlot _ k c hk hpc =>
    exact le_trans hs (call k c _ hk (by simp [Call.returnedNil, hpc]))
  | receiveClosed _ k c hk hpc =>
    exact le_trans hs (call k c _ hk (by simp [Call.returnedNil, hpc]))
  | timer _ k c _ hk hpc => exact le_trans hs (call k c _ hk (by simp [Call.returnedNil, hpc]))
  | timerPanic _ k c hk hpc => exact le_trans hs (call k c _ hk (by simp [Call.returnedNil, hpc]))
  | sendClosed _ k c hk hpc => exact le_trans hs (call k c _ hk (by simp [Call.returnedNil, hpc]))
  | handoff _ k i c hk hi hpc =>
    have h1 := countP_set_of Call.returnedNil s.calls k c { c with pc := .returned none } hk
    have h2 := countP_set_of WorkerPc.isExec s.workers i .select (.exec c.job) hi
    simp only [Call.returnedNil, hpc, WorkerPc.isExec] at h1 h2 ⊢
    simp only [Bool.false_eq_true, if_false, if_true] at h1 h2
    omega
  | advertise _ i hi => exact le_trans (worker i _ _ hi rfl) hs
  | advertiseTo _ i k c hi hk hpc =>
    exact le_trans (worker i _ _ hi rfl)
      (le_trans hs (call k c _ hk (by simp [Call.returnedNil, hpc])))
  | advertisePanic _ i hi => exact le_trans (worker i _ _ hi rfl) hs
  | receiveNil _ i hi hjc1 => simp [hjc] at hjc1
  | quit _ i hi => exact le_trans (worker i _ _ hi rfl) hs
  | execute _ i j hi => exact le_trans (worker i _ _ hi rfl) hs
  | executeError _ i j e hi => exact le_trans (worker i _ _ hi rfl) hs
  | executePanic _ i hi => exact le_trans (worker i _ _ hi rfl) hs
  | _ => exact hs

/-- A call holding a slot meets a worker in its `select`. -/
theorem progress_send {n : Nat} {s : Sys} {k : Nat} {c : Call} (hr : Running n s)
    (hc : s.crashed = false) (hk : s.calls[k]? = some c) (hpc : c.pc = .send) :
    ∃ (s1 : Sys) (i : Nat), run [.handoff k i] s = some s1 ∧
      s1.calls[k]? = some { c with pc := .returned none } ∧
      s1.workers[i]? = some (.exec c.job) ∧ s1.crashed = false := by
  obtain ⟨_, _, _, _, hjc, _, _, _, hcount⟩ := hr
  have hsend : 0 < s.calls.countP Call.isSend :=
    List.countP_pos_iff.2 ⟨c, List.getElem?_mem hk, by simp [Call.isSend, hpc]⟩
  obtain ⟨i, hi⟩ := exists_select (by omega : 0 < s.workers.countP WorkerPc.isSelect)
  have hlk := lt_of_getElem?_some hk
  have hli := lt_of_getElem?_some hi
  refine ⟨{ s with
      calls := s.calls.set k { c with pc := .returned none }
      workers := s.workers.set i (.exec c.job)
      handoffs := s.handoffs ++ [(k, i)] }, i, ?_, by simp [hlk], by simp [hli], hc⟩
  simp [run, step, hc, hk, hi, hpc, hjc]

/-- A waiting call takes a queued slot and hands its job over. -/
theorem progress_receive {n : Nat} {s : Sys} {k : Nat} {c : Call} (hr : Running n s)
    (hc : s.crashed = false) (hk : s.calls[k]? = some c) (hpc : c.pc = .wait)
    (hlen : 0 < s.w.WorkerPool.len) :
    ∃ (s1 : Sys) (i : Nat), run [.receive k, .handoff k i] s = some s1 ∧
      s1.calls[k]? = some { c with pc := .returned none } ∧
      s1.workers[i]? = some (.exec c.job) ∧ s1.crashed = false := by
  have hlk := lt_of_getElem?_some hk
  have hstep : step (.receive k) s =
      some { s with
        w := { s.w with WorkerPool := { s.w.WorkerPool with len := s.w.WorkerPool.len - 1 } }
        calls := s.calls.set k { c with pc := .send } } := by
    simp [step, hc, hk, hpc, QueueJob.receive, hlen, Sys.afterCall]
  have hr1 := (step_sound hstep).2.running (by simp) hr
  have hk1 : (s.calls.set k { c with pc := .send })[k]? = some { c with pc := .send } := by
    simp [hlk]
  obtain ⟨s1, i, h1, h2, h3, h4⟩ := progress_send hr1 hc hk1 rfl
  refine ⟨s1, i, ?_, h2, h3, h4⟩
  simp only [run, hstep]
  exact h1

/-- A waiting call is served when some worker is neither executing nor
claimed by a call that holds its slot. -/
theorem progress_wait {n : Nat} {s : Sys} {k : Nat} {c : Call} (hr : Running n s)
    (ha : Alive s) (hc : s.crashed = false) (hk : s.calls[k]? = some c) (hpc : c.pc = .wait)
    (hfree : s.workers.countP WorkerPc.isExec + s.calls.countP Call.isSend < n) :
    ∃ (bs : List Action) (s1 : Sys) (i : Nat), run bs s = some s1 ∧ (∀ a ∈ bs, Serves k a) ∧
      s1.calls[k]? = some { c with pc := .returned none } ∧
      s1.workers[i]? = some (.exec c.job) ∧ s1.crashed = false := by
  by_cases hlen : 0 < s.w.WorkerPool.len
  · obtain ⟨s1, i, h1, h2, h3, h4⟩ := progress_receive hr hc hk hpc hlen
    refine ⟨_, s1, i, h1, ?_, h2, h3, h4⟩
    intro a hmem
    simp only [List.mem_cons, List.mem_singleton, List.mem_nil_iff, or_false] at hmem
    rcases hmem with rfl | rfl
    · exact Or.inr (Or.inl rfl)
    · exact Or.inr (Or.inr (Or.inr ⟨i, rfl⟩))
  · have hr0 := hr
    obtain ⟨_, _, _, hcl, _, _, hcap, hwl, hcount⟩ := hr
    obtain ⟨i0, hi0⟩ := exists_advertise ha hc (by omega)
    have hstep : step (.advertise i0) s =
        some { s with
          w := { s.w with
            WorkerPool := { s.w.WorkerPool with len := s.w.WorkerPool.len + 1 } }
          workers := s.workers.set i0 .select } := by
      have : s.w.WorkerPool.len < s.w.WorkerPool.cap := by omega
      simp [step, hc, hi0, workerAdvertise, hcl, this, Sys.afterWorker]
    have hr1 := (step_sound hstep).2.running (by simp) hr0
    have hk1 : ({ s with
        w := { s.w with
          WorkerPool := { s.w.WorkerPool with len := s.w.WorkerPool.len + 1 } }
        workers := s.workers.set i0 .select } : Sys).calls[k]? = some c := hk
    obtain ⟨s1, i, h1, h2, h3, h4⟩ := progress_receive hr1 hc hk1 hpc (by simp)
    refine ⟨.advertise i0 :: [.receive k, .handoff k i], s1, i, ?_, ?_, h2, h3, h4⟩
    · simp only [run, hstep] at h1 ⊢
      exact h1
    · intro a hmem
      simp only [List.mem_cons, List.mem_singleton, List.mem_nil_iff, or_false] at hmem
      rcases hmem with rfl | rfl | rfl
      · exact Or.inr (Or.inr (Or.inl ⟨i0, rfl⟩))
      · exact Or.inr (Or.inl rfl)
      · exact Or.inr (Or.inr (Or.inr ⟨i, rfl⟩))

/-- A call in progress on a running pool can be completed by moves that
serve it, as long as it holds a slot or some worker is neither executing nor
claimed by a call that holds its slot. -/
theorem progress_call {n : Nat} {s : Sys} {k : Nat} {c : Call} (hr : Running n s)
    (ha : Alive s) (hc : s.crashed = false) (hk : s.calls[k]? = some c)
    (hpc : c.pc = .check ∨ c.pc = .wait ∨ c.pc = .send)
    (hfree : c.pc = .send ∨
      s.workers.countP WorkerPc.isExec + s.calls.countP Call.isSend < n) :
    ∃ (bs : List Action) (s1 : Sys) (i : Nat), run bs s = some s1 ∧ (∀ a ∈ bs, Serves k a) ∧
      s1.calls[k]? = some { c with pc := .returned none } ∧
      s1.workers[i]? = some (.exec c.job) ∧ s1.crashed = false := by
  rcases hpc with hpc | hpc | hpc
  · have hfree1 : s.workers.countP WorkerPc.isExec + s.calls.countP Call.isSend < n := by
      rcases hfree with h | h
      · rw [hpc] at h
        cases h
      · exact h
    have hlk := lt_of_getElem?_some hk
    have hstep : step (.check k) s =
        some { s with calls := s.calls.set k { c with pc := .wait } } := by
      simp [step, hc, hk, hpc, QueueJob.check, hr.2.1, hr.2.2.1, Sys.afterCall]
    have hr1 := (step_sound hstep).2.running (by simp) hr
    have ha1 := (step_sound hstep).2.alive hr hc ha
    have hcnt := countP_set_of Call.isSend s.calls k c { c with pc := .wait } hk
    simp only [Call.isSend, hpc, Bool.false_eq_true, if_false] at hcnt
    have hk1 : (s.calls.set k { c with pc := .wait })[k]? = some { c with pc := .wait } := by
      simp [hlk]
    obtain ⟨bs, s1, i, h1, h2, h3, h4, h5⟩ :=
      progress_wait hr1 ha1 hc hk1 rfl (by
        show List.countP WorkerPc.isExec s.workers +
          List.countP Call.isSend (s.calls.set k { c with pc := .wait }) < n
        omega)
    refine ⟨.check k :: bs, s1, i, ?_, ?_, h3, h4, h5⟩
    · simp only [run, hstep]
      exact h1
    · intro a hmem
      simp only [List.mem_cons] at hmem
      rcases hmem with rfl | hmem
      · exact Or.inl rfl
      · exact h2 a hmem
  · have hfree1 : s.workers.countP WorkerPc.isExec + s.calls.countP Call.isSend < n := by
      rcases hfree with h | h
      · rw [hpc] at h
        cases h
      · exact h
    exact progress_wait hr ha hc hk hpc hfree1
  · obtain ⟨s1, i, h1, h2, h3, h4⟩ := progress_send hr hc hk hpc
    refine ⟨_, s1, i, h1, ?_, h2, h3, h4⟩
    intro a hmem
    simp only [List.mem_singleton] at hmem
    subst hmem
    exact Or.inr (Or.inr (Or.inr ⟨i, rfl⟩))

theorem started_alive (n : Nat) : Alive (started n) := by
  refine Or.inr ?_
  intro p hp
  simp only [started, List.mem_replicate] at hp
  exact Or.inl hp.2

theorem started_execHanded (n : Nat) : ExecHanded (started n) := by
  simp [ExecHanded, started, Sys.created, List.countP_replicate, WorkerPc.isExec]

theorem run_running_alive {n : Nat} {as : List Action} {s : Sys} (hno : Action.stop ∉ as)
    (hrun : run as (started n) = some s) : Running n s ∧ Alive s ∧ ExecHanded s :=
  run_invariant_no_stop (fun s => Running n s ∧ Alive s ∧ ExecHanded s)
    (fun _ _ _ hne h hc hp =>
      ⟨h.running hne hp.1, h.alive hp.1 hc hp.2.1, h.execHanded hp.1 hp.2.2⟩)
    hno hrun ⟨started_running n, started_alive n, started_execHanded n⟩

/-- C3: take the pool `CreateWorker` returns for `MaxWorkers = n >= 1`,
started by `StartServer()`, with no `StopServer` (the program has no resize
move).  (a) `n` calls `QueueJob(j, 0)`, one for each of `n` jobs, all return
nil, each job in the hands of a worker that has not finished it; in no state
reached has a call without timeout returned an error; and in every state
reached, in whatever order the calls and the workers have moved, a call in
progress can be completed, its job handed to a worker and nil returned, by
its own moves and those of idle workers alone, no job having to finish, as
long as no more than `n` calls have been made (or, more generally, the call
holds a slot or some worker is neither executing nor claimed by a call that
holds its slot).  (b) In every state reached in which every worker is
executing a job, the dispatch queue holds no handoff slot and no call holds
one; so a further `QueueJob` with a positive timeout, past its stopped check,
cannot receive a slot, and its timer move returns the timeout error, logged
once, the workers and the hand-offs unchanged: its job went to no worker.
(c) From such a state, once a worker finishes its job and advertises itself
again, a further `QueueJob` receives the slot, hands its job to that worker
and returns nil. -/
theorem pool_saturates_at_MaxWorkers (n : Nat) (hn : 1 ≤ n) (memory : Nat)
    (createEnv newLogger : Option String) (parse : WorkerConfig → Except String WorkerConfig)
    (w : Worker) (s0 : Sys) (hcreate : CreateWorker memory createEnv parse newLogger = .ok w)
    (hcfg : w.Config = some { MaxWorkers := n }) (hstart : StartServer w noOptions = .ok s0) :
    (∀ js : List JobImpl, js.length = n →
      run (enqueueAll 0 js) s0 =
        some { s0 with
          workers := js.map (fun j => .exec (some j))
          calls := js.map (fun j => { job := some j, timeout := 0, pc := .returned none })
          handoffs := (List.range n).map (fun k => (k, k)) }) ∧
    (∀ (as : List Action) (s : Sys), Action.stop ∉ as → run as s0 = some s →
      ∀ c ∈ s.calls, c.timeout ≤ 0 → ∀ e, c.pc = .returned e → e = none) ∧
    (∀ (as : List Action) (s : Sys) (k : Nat) (c : Call), Action.stop ∉ as →
      run as s0 = some s → s.crashed = false → s.calls[k]? = some c →
      (c.pc = .check ∨ c.pc = .wait ∨ c.pc = .send) →
      (s.calls.length ≤ n ∨ c.pc = .send ∨
        s.workers.countP WorkerPc.isExec + s.calls.countP Call.isSend < n) →
      ∃ (bs : List Action) (s1 : Sys) (i : Nat), run bs s = some s1 ∧
        (∀ a ∈ bs, Serves k a) ∧ s1.calls[k]? = some { c with pc := .returned none } ∧
        s1.workers[i]? = some (.exec c.job) ∧ s1.crashed = false) ∧
    (∀ (as : List Action) (s : Sys), Action.stop ∉ as → run as s0 = some s →
      (∀ p ∈ s.workers, p.isExec = true) →
      s.w.WorkerPool.len = 0 ∧ (∀ c ∈ s.calls, c.pc ≠ .send) ∧
      ∀ (j : JobImpl) (t : Int), 0 < t → s.crashed = false →
        run [.queue (some j) t, .check s.calls.length] s =
          some { s with calls := s.calls ++ [{ job := some j, timeout := t, pc := .wait }] } ∧
        run [.queue (some j) t, .check s.calls.length, .receive s.calls.length] s = none ∧
        run [.queue (some j) t, .check s.calls.length, .timer s.calls.length] s =
          some { s with
            w := { s.w with
              Logger := s.w.Logger ++
                [{ context := j.context, jobName := j.name, err := .timedOut t }] }
            calls := s.calls ++
              [{ job := some j, timeout := t, pc := .returned (some (.timedOut t)) }] }) ∧
    (∀ (as : List Action) (s : Sys) (i : Nat) (j0 : JobImpl) (job : Job) (t : Int),
      Action.stop ∉ as → run as s0 = some s → (∀ p ∈ s.workers, p.isExec = true) →
      s.crashed = false → s.workers[i]? = some (.exec (some j0)) →
      ∃ s1, run [.execute i, .advertise i, .queue job t, .check s.calls.length,
            .receive s.calls.length, .handoff s.calls.length i] s = some s1 ∧
        s1.calls = s.calls ++ [{ job := job, timeout := t, pc := .returned none }] ∧
        s1.workers = s.workers.set i (.exec job) ∧
        s1.handoffs = s.handoffs ++ [(s.calls.length, i)] ∧ s1.crashed = false) := by
  have hw : w = newPool n := CreateWorker_eq_newPool hcreate hcfg
  subst hw
  rw [StartServer_newPool] at hstart
  cases hstart
  refine ⟨?_, ?_, ?_, ?_, ?_⟩
  · intro js hjs
    obtain ⟨m, rfl⟩ : ∃ m, n = m + 1 := ⟨n - 1, by omega⟩
    have h := run_enqueueAll m js []
    have h0 : allBusy (m + 1) [] js.length = started (m + 1) := by
      simp [allBusy, hjs]
      rfl
    rw [h0] at h
    simp only [List.length_nil, List.nil_append] at h
    rw [h]
    simp [allBusy, hjs]
  · intro as s hno hrun c hc ht e he
    cases e with
    | none => rfl
    | some e =>
      have hinit : OnlyTimeouts (started n) := by
        intro c hc
        simp [started, Sys.created] at hc
      have := (run_onlyTimeouts hno hrun (started_running n) hinit c hc e he).2
      omega
  · intro as s k c hno hrun hcr hk hpc hfree
    obtain ⟨hr, ha, he⟩ := run_running_alive hno hrun
    refine progress_call hr ha hcr hk hpc ?_
    rcases hfree with h | h | h
    · by_cases hs : c.pc = .send
      · exact Or.inl hs
      · right
        have hlt := countP_two_lt Call.returnedNil Call.isSend s.calls c
          (List.getElem?_mem hk)
          (by rcases hpc with h1 | h1 | h1 <;> simp [Call.returnedNil, h1])
          (by rcases hpc with h1 | h1 | h1 <;> simp_all [Call.isSend])
          (by
            intro y h1 h2
            cases hy : y.pc <;> simp_all [Call.returnedNil, Call.isSend])
        unfold ExecHanded at he
        omega
    · exact Or.inl h
    · exact Or.inr h
  · intro as s hno hrun hall
    obtain ⟨hq, hst, hmux, hcl, hjc, hwt, hcap, hlen, hcount⟩ :=
      run_running hno hrun (started_running n)
    rw [countP_isSelect_of_all_exec _ hall] at hcount
    have hlen0 : s.w.WorkerPool.len = 0 := by omega
    have hsend : s.calls.countP Call.isSend = 0 := by omega
    refine ⟨hlen0, ?_, ?_⟩
    · intro c hc hpc
      rw [List.countP_eq_zero] at hsend
      exact hsend c hc (by simp [Call.isSend, hpc])
    · intro j t ht hcr
      refine ⟨?_, ?_, ?_⟩
      · simp [run, step, hcr, Sys.afterCall, QueueJob.check, hst, hmux]
      · simp [run, step, hcr, Sys.afterCall, QueueJob.check, hst, hmux, QueueJob.receive,
          hlen0, hcl]
      · simp [run, step, hcr, Sys.afterCall, QueueJob.check, hst, hmux, QueueJob.timer, ht,
          ErrorLog]
  · intro as s i j0 job t hno hrun hall hcr hi
    obtain ⟨hq, hst, hmux, hcl, hjc, hwt, hcap, hlen, hcount⟩ :=
      run_running hno hrun (started_running n)
    rw [countP_isSelect_of_all_exec _ hall] at hcount
    have hlen0 : s.w.WorkerPool.len = 0 := by omega
    have hcap0 : 0 < s.w.WorkerPool.cap := by omega
    have hlt := lt_of_getElem?_some hi
    cases he : j0.execute with
    | none =>
      refine ⟨{ s with
        workers := s.workers.set i (.exec job)
        calls := s.calls ++ [{ job := job, timeout := t, pc := .returned none }]
        executed := s.executed ++ [j0]
        handoffs := s.handoffs ++ [(s.calls.length, i)] }, ?_, rfl, rfl, rfl, hcr⟩
      simp [run, step, hcr, hi, hlt, workerExecute, he, Sys.afterWorker, workerAdvertise, hcl,
        hlen0, hcap0, Sys.afterCall, QueueJob.check, hst, hmux, QueueJob.receive, hjc]
      exact Worker.eta_running _ hst hmux hcl hjc hlen0
    | some e =>
      refine ⟨{ s with
        w := { s.w with
          Logger := s.w.Logger ++ [{ context := j0.context, jobName := j0.name, err := e }] }
        workers := s.workers.set i (.exec job)
        calls := s.calls ++ [{ job := job, timeout := t, pc := .returned none }]
        executed := s.executed ++ [j0]
        handoffs := s.handoffs ++ [(s.calls.length, i)] }, ?_, rfl, rfl, rfl, hcr⟩
      simp [run, step, hcr, hi, hlt, workerExecute, he, ErrorLog, Sys.afterWorker,
        workerAdvertise, hcl, hlen0, hcap0, Sys.afterCall, QueueJob.check, hst, hmux,
        QueueJob.receive, hjc]
      exact Chan.eta_empty _ hcl hlen0

/-- C3 for `MaxWorkers = 2`: A and B are handed to the two workers, a third
`QueueJob` with timeout 10 times out, and is served once worker 1 has
finished B; and with both workers idle and two slots queued, a waiting
`QueueJob(A, 0)` is served. -/
theorem pool_saturates_at_MaxWorkers_witness :
    1 ≤ 2 ∧ CreateWorker 1024 none (parseTo 2) none = .ok (newPool 2) ∧
      (newPool 2).Config = some { MaxWorkers := 2 } ∧
      StartServer (newPool 2) noOptions = .ok (started 2) ∧
      run (enqueueAll 0 [jobA, jobB]) (started 2) = some (allBusy 2 [jobA, jobB] 0) ∧
      (allBusy 2 [jobA, jobB] 0).w.WorkerPool.len = 0 ∧
      run [.queue (some jobF) 10, .check 2, .receive 2] (allBusy 2 [jobA, jobB] 0) = none ∧
      run [.queue (some jobF) 10, .check 2, .timer 2] (allBusy 2 [jobA, jobB] 0) =
        some { allBusy 2 [jobA, jobB] 0 with
          w := { newPool 2 with
            Logger := [{ context := some 3, jobName := "F", err := .timedOut 10 }] }
          calls := [{ job := some jobA, timeout := 0, pc := .returned none },
            { job := some jobB, timeout := 0, pc := .returned none },
            { job := some jobF, timeout := 10, pc := .returned (some (.timedOut 10)) }] } ∧
      (∃ s1, run [.execute 1, .advertise 1, .queue (some jobF) 10, .check 2, .receive 2,
            .handoff 2 1] (allBusy 2 [jobA, jobB] 0) = some s1 ∧
        s1.workers = [.exec (some jobA), .exec (some jobF)]) ∧
      run [.advertise 0, .advertise 1, .queue (some jobA) 0, .check 0] (started 2) =
        some twoIdle ∧
      ∃ (bs : List Action) (s1 : Sys) (i : Nat), run bs twoIdle = some s1 ∧
        s1.calls[0]? = some { job := some jobA, timeout := 0, pc := .returned none } ∧
        s1.workers[i]? = some (.exec (some jobA)) := by
  have h := pool_saturates_at_MaxWorkers 2 (by decide) 1024 none none (parseTo 2) (newPool 2)
    (started 2) rfl rfl rfl
  have hb := h.2.2.2.1 (enqueueAll 0 [jobA, jobB]) (allBusy 2 [jobA, jobB] 0) (by decide) rfl
    (by decide)
  obtain ⟨bs, s2, i2, h3, _, h4, h5, _⟩ := h.2.2.1
    [.advertise 0, .advertise 1, .queue (some jobA) 0, .check 0] twoIdle 0
    { job := some jobA, timeout := 0, pc := .wait } (by decide) rfl rfl rfl
    (Or.inr (Or.inl rfl)) (Or.inl (by decide))
  obtain ⟨s1, h1, _, h2, _⟩ := h.2.2.2.2 (enqueueAll 0 [jobA, jobB]) (allBusy 2 [jobA, jobB] 0) 1
    jobB (some jobF) 10 (by decide) rfl (by decide) rfl rfl
  exact ⟨by decide, rfl, rfl, rfl, h.1 [jobA, jobB] rfl, hb.1,
    (hb.2.2 jobF 10 (by decide) rfl).2.1, (hb.2.2 jobF 10 (by decide) rfl).2.2,
    ⟨s1, h1, h2⟩, rfl, bs, s2, i2, h3, h4, h5⟩

end Pool
